import Mathlib

/-!
Shallow embedding of the MIPS-Assembly-Interpreter sources
(`Constants.h`, `mybitlib.h`, `Memory.h`, `RegisterFile.h`, `CPU.h`,
`Machine.h`, `Parser.h`, `Lexer.h`) and proofs of the specification
claims about them.

Conventions of the embedding:
* `uint32_t` values are `Nat`s; wrap-around casts are explicit `% 2^32`
  (written through `toU32`), and `int32_t`/`int64_t` arithmetic is `Int`
  with the C++ casts modeled by `toS32`/`toS64`.
* a C++ function that can `throw std::runtime_error` becomes a function
  into `Except String _`, carrying the exact message of the source;
* `std::map<uint32_t, uint8_t>` (the sparse memory) becomes an
  association list whose first matching entry is the current binding;
  `mem_[addr] = val` is modeled by prepending the new binding;
* console input/output inside `syscall` is outside the pure embedding;
  reaching a console service yields the distinguished `ExecResult.console`
  outcome instead of a post-state.
-/

namespace MIPS

/-- From mybitlib.h: `mask_bits(width)` is `(1u << width) - 1u`. -/
def mask_bits (width : Nat) : Nat := (1 <<< width) - 1

/-- Value of a `Nat` reinterpreted as C++ `int32_t` (two's complement). -/
def toS32 (n : Nat) : Int := if n % 2 ^ 32 < 2 ^ 31 then (n % 2 ^ 32 : Nat) else (n % 2 ^ 32 : Nat) - 2 ^ 32

/-- Value of a `Nat` reinterpreted as C++ `int64_t` (two's complement). -/
def toS64 (n : Nat) : Int := if n % 2 ^ 64 < 2 ^ 63 then (n % 2 ^ 64 : Nat) else (n % 2 ^ 64 : Nat) - 2 ^ 64

/-- `static_cast<uint32_t>` of a signed value: its two's-complement bit
pattern as a `Nat` below `2^32`. -/
def toU32 (v : Int) : Nat := (v % 2 ^ 32).toNat

/-- `static_cast<uint64_t>` of a signed value. -/
def toU64 (v : Int) : Nat := (v % 2 ^ 64).toNat

/-- Sign extension of a 16-bit field (C++ `static_cast<int16_t>` of the
low 16 bits, then widening). -/
def signExt16 (n : Nat) : Int := if n % 2 ^ 16 < 2 ^ 15 then (n % 2 ^ 16 : Nat) else (n % 2 ^ 16 : Nat) - 2 ^ 16

-- Segment bounds from Constants.h.

def TEXT_BASE : Nat := 0x00400000
def TEXT_LIMIT : Nat := 0x10000000
def DATA_BASE : Nat := 0x10000000
def DATA_LIMIT : Nat := 0x10040000
def STACK_BASE : Nat := DATA_LIMIT
def STACK_LIMIT : Nat := 0x80000000
def STACK_INIT : Nat := 0x7fffeffc

--==============================================================
-- Memory (Memory.h)
--==============================================================

/-- Sparse memory: `std::map<uint32_t, uint8_t> mem_` as an association
list; the first entry with a given address is its current value. -/
structure Memory where
  bytes : List (Nat × Nat)
deriving DecidableEq

/-- `Memory::is_text`. -/
def Memory.is_text (addr : Nat) : Bool := decide (TEXT_BASE ≤ addr ∧ addr < TEXT_LIMIT)

/-- `Memory::is_data`. -/
def Memory.is_data (addr : Nat) : Bool := decide (DATA_BASE ≤ addr ∧ addr < DATA_LIMIT)

/-- `Memory::is_stack`. -/
def Memory.is_stack (addr : Nat) : Bool := decide (STACK_BASE ≤ addr ∧ addr < STACK_LIMIT)

/-- `Memory::is_valid_address`. -/
def Memory.is_valid_address (addr : Nat) : Bool :=
  Memory.is_text addr || Memory.is_data addr || Memory.is_stack addr

/-- `Memory::reset`: clear all memory contents. -/
def Memory.reset (_ : Memory) : Memory := ⟨[]⟩

/-- `Memory::load8`: bounds check, then lookup with default 0 for
unmapped bytes. -/
def Memory.load8 (m : Memory) (addr : Nat) : Except String Nat :=
  if ¬ Memory.is_valid_address addr then .error "Memory load8: address out of bounds"
  else
    match m.bytes.lookup addr with
    | none => .ok 0
    | some v => .ok v

/-- `Memory::store8`: bounds check, then insert/overwrite the byte. -/
def Memory.store8 (m : Memory) (addr v : Nat) : Except String Memory :=
  if ¬ Memory.is_valid_address addr then .error "Memory store8: address out of bounds"
  else .ok ⟨(addr, v) :: m.bytes⟩

/-- `Memory::load32`: alignment check, explicit bounds check on all four
bytes, then big-endian recombination of four `load8`s. -/
def Memory.load32 (m : Memory) (addr : Nat) : Except String Nat :=
  if addr &&& 0x3 ≠ 0 then .error "Memory load32: unaligned address"
  else if ¬ (Memory.is_valid_address addr ∧ Memory.is_valid_address (addr + 1) ∧
             Memory.is_valid_address (addr + 2) ∧ Memory.is_valid_address (addr + 3)) then
    .error "Memory load32: address out of bounds"
  else do
    let b0 ← m.load8 (addr + 0)
    let b1 ← m.load8 (addr + 1)
    let b2 ← m.load8 (addr + 2)
    let b3 ← m.load8 (addr + 3)
    pure ((b0 <<< 24) ||| (b1 <<< 16) ||| (b2 <<< 8) ||| b3)

/-- `Memory::store32`: alignment check, bounds check on `addr + 3` only
(the stores of the individual bytes re-check each address), then four
big-endian `store8`s. -/
def Memory.store32 (m : Memory) (addr v : Nat) : Except String Memory :=
  if addr &&& 0x3 ≠ 0 then .error "Memory store32: unaligned address"
  else if ¬ Memory.is_valid_address (addr + 3) then .error "Memory store32: address out of bounds"
  else do
    let m ← m.store8 (addr + 0) ((v >>> 24) &&& 0xFF)
    let m ← m.store8 (addr + 1) ((v >>> 16) &&& 0xFF)
    let m ← m.store8 (addr + 2) ((v >>> 8) &&& 0xFF)
    m.store8 (addr + 3) (v &&& 0xFF)

--==============================================================
-- Opcodes and functs (Constants.h)
--==============================================================

def OP_RTYPE : Nat := 0x00
def OP_REGIMM : Nat := 0x01
def OP_J : Nat := 0x02
def OP_JAL : Nat := 0x03
def OP_BEQ : Nat := 0x04
def OP_BNE : Nat := 0x05
def OP_BLEZ : Nat := 0x06
def OP_BGTZ : Nat := 0x07
def OP_ADDI : Nat := 0x08
def OP_ADDIU : Nat := 0x09
def OP_SLTI : Nat := 0x0A
def OP_SLTIU : Nat := 0x0B
def OP_ANDI : Nat := 0x0C
def OP_ORI : Nat := 0x0D
def OP_XORI : Nat := 0x0E
def OP_LUI : Nat := 0x0F
def OP_LB : Nat := 0x20
def OP_LH : Nat := 0x21
def OP_LW : Nat := 0x23
def OP_LBU : Nat := 0x24
def OP_LHU : Nat := 0x25
def OP_SB : Nat := 0x28
def OP_SH : Nat := 0x29
def OP_SW : Nat := 0x2B

def FUNCT_NONE : Nat := 0x00
def FUNCT_SLL : Nat := 0x00
def FUNCT_SRL : Nat := 0x02
def FUNCT_SRA : Nat := 0x03
def FUNCT_SLLV : Nat := 0x04
def FUNCT_SRLV : Nat := 0x06
def FUNCT_SRAV : Nat := 0x07
def FUNCT_JR : Nat := 0x08
def FUNCT_JALR : Nat := 0x09
def FUNCT_SYSCALL : Nat := 0x0C
def FUNCT_MFHI : Nat := 0x10
def FUNCT_MTHI : Nat := 0x11
def FUNCT_MFLO : Nat := 0x12
def FUNCT_MTLO : Nat := 0x13
def FUNCT_MULT : Nat := 0x18
def FUNCT_MULTU : Nat := 0x19
def FUNCT_DIV : Nat := 0x1A
def FUNCT_DIVU : Nat := 0x1B
def FUNCT_ADD : Nat := 0x20
def FUNCT_ADDU : Nat := 0x21
def FUNCT_SUB : Nat := 0x22
def FUNCT_SUBU : Nat := 0x23
def FUNCT_AND : Nat := 0x24
def FUNCT_OR : Nat := 0x25
def FUNCT_XOR : Nat := 0x26
def FUNCT_NOR : Nat := 0x27
def FUNCT_SEQ : Nat := 0x28
def FUNCT_SLT : Nat := 0x2A
def FUNCT_SLTU : Nat := 0x2B

def RT_BLTZ : Nat := 0x00
def RT_BGEZ : Nat := 0x01

--==============================================================
-- RegisterFile (RegisterFile.h)
--==============================================================

/-- The 32 general-purpose registers plus HI and LO. Registers hold
`uint32_t` values; the write primitives truncate to 32 bits, modeling
the field type. -/
structure RegisterFile where
  x : Nat → Nat
  hi : Nat
  lo : Nat

/-- `RegisterFile::readU`. -/
def RegisterFile.readU (r : RegisterFile) (i : Nat) : Nat := r.x i

/-- `RegisterFile::readS`. -/
def RegisterFile.readS (r : RegisterFile) (i : Nat) : Int := toS32 (r.readU i)

/-- `RegisterFile::writeU`: register 0 is silently not overwritten. -/
def RegisterFile.writeU (r : RegisterFile) (i v : Nat) : RegisterFile :=
  if i = 0 then r else { r with x := fun j => if j = i then v % 2 ^ 32 else r.x j }

/-- `RegisterFile::writeS`. -/
def RegisterFile.writeS (r : RegisterFile) (i : Nat) (v : Int) : RegisterFile :=
  r.writeU i (toU32 v)

/-- `RegisterFile::write_hiU` (and the signed variant, which stores the
same bit pattern). -/
def RegisterFile.write_hiU (r : RegisterFile) (v : Nat) : RegisterFile := { r with hi := v % 2 ^ 32 }

/-- `RegisterFile::write_loU`. -/
def RegisterFile.write_loU (r : RegisterFile) (v : Nat) : RegisterFile := { r with lo := v % 2 ^ 32 }

/-- `RegisterFile::write_hiS`. -/
def RegisterFile.write_hiS (r : RegisterFile) (v : Int) : RegisterFile := r.write_hiU (toU32 v)

/-- `RegisterFile::write_loS`. -/
def RegisterFile.write_loS (r : RegisterFile) (v : Int) : RegisterFile := r.write_loU (toU32 v)

/-- `RegisterFile::reset`: zero every register and HI/LO. -/
def RegisterFile.reset (_ : RegisterFile) : RegisterFile :=
  { x := fun _ => 0, hi := 0, lo := 0 }

--==============================================================
-- CPU (CPU.h)
--==============================================================

/-- CPU registers, program counter and halted flag. The memory the C++
CPU references is passed alongside. -/
structure CPU where
  regs : RegisterFile
  pc : Nat
  halted : Bool

/-- `CPU::reset`: reset registers and PC. The `halted` flag is not
touched. -/
def CPU.reset (c : CPU) : CPU :=
  { c with regs := c.regs.reset, pc := TEXT_BASE }

/-- Outcome of `CPU::execute`: a post-state, a thrown
`std::runtime_error` message, or a console-I/O syscall service (whose
stdin/stdout interaction is outside the pure embedding). -/
inductive ExecResult where
  | ok : CPU → Memory → ExecResult
  | trap : String → ExecResult
  | console : Nat → ExecResult

/-- Value of a `Nat` reinterpreted as C++ `int8_t` (used by `lb`). -/
def toS8 (n : Nat) : Int := if n % 2 ^ 8 < 2 ^ 7 then (n % 2 ^ 8 : Nat) else (n % 2 ^ 8 : Nat) - 2 ^ 8

/-- Value of a `Nat` reinterpreted as C++ `int16_t` (used by `lh`). -/
def toS16 (n : Nat) : Int := if n % 2 ^ 16 < 2 ^ 15 then (n % 2 ^ 16 : Nat) else (n % 2 ^ 16 : Nat) - 2 ^ 16

/-- `CPU::execute`, the full decode/execute switch of CPU.h. Each C++
case appears in source order; `throw` becomes `ExecResult.trap` with the
exact message. The `if`-chains mirror the `switch` statements (all case
labels are distinct, so the order is immaterial). -/
def CPU.execute (word : Nat) (c : CPU) (mem : Memory) : ExecResult :=
  let opcode := (word >>> 26) &&& mask_bits 6
  if opcode = OP_RTYPE then
    let rs := (word >>> 21) &&& mask_bits 5
    let rt := (word >>> 16) &&& mask_bits 5
    let rd := (word >>> 11) &&& mask_bits 5
    let shamt := (word >>> 6) &&& mask_bits 5
    let funct := word &&& mask_bits 6
    if funct = FUNCT_ADD then
      let a : Int := c.regs.readS rs
      let b : Int := c.regs.readS rt
      let t : Int := a + b
      if t < -(2 ^ 31) ∨ t > 2 ^ 31 - 1 then .trap "MIPS integer overflow on add"
      else .ok { c with regs := c.regs.writeS rd t } mem
    else if funct = FUNCT_ADDU then
      -- uint64 t = a + b; the `t < 0u` half of the source's range check
      -- is vacuous for unsigned t.
      let a := c.regs.readU rs
      let b := c.regs.readU rt
      let t := a + b
      if t > 0xFFFFFFFF then .trap "MIPS integer overflow on addu"
      else .ok { c with regs := c.regs.writeU rd (t % 2 ^ 32) } mem
    else if funct = FUNCT_SUB then
      let a : Int := c.regs.readS rs
      let b : Int := c.regs.readS rt
      let t : Int := a - b
      if t < -(2 ^ 31) ∨ t > 2 ^ 31 - 1 then .trap "MIPS integer overflow on sub"
      else .ok { c with regs := c.regs.writeS rd t } mem
    else if funct = FUNCT_SUBU then
      -- uint64 t = a - b wraps modulo 2^64.
      let a := c.regs.readU rs
      let b := c.regs.readU rt
      let t := (a + 2 ^ 64 - b % 2 ^ 64) % 2 ^ 64
      if t > 0xFFFFFFFF then .trap "MIPS integer overflow on subu"
      else .ok { c with regs := c.regs.writeU rd (t % 2 ^ 32) } mem
    else if funct = FUNCT_AND then
      .ok { c with regs := c.regs.writeU rd (c.regs.readU rs &&& c.regs.readU rt) } mem
    else if funct = FUNCT_OR then
      .ok { c with regs := c.regs.writeU rd (c.regs.readU rs ||| c.regs.readU rt) } mem
    else if funct = FUNCT_XOR then
      .ok { c with regs := c.regs.writeU rd (c.regs.readU rs ^^^ c.regs.readU rt) } mem
    else if funct = FUNCT_NOR then
      -- ~(rs | rt) on uint32: complement against the 32-bit mask.
      .ok { c with regs := c.regs.writeU rd (((c.regs.readU rs ||| c.regs.readU rt) % 2 ^ 32) ^^^ mask_bits 32) } mem
    else if funct = FUNCT_SLT then
      .ok { c with regs := c.regs.writeU rd (if c.regs.readS rs < c.regs.readS rt then 1 else 0) } mem
    else if funct = FUNCT_SLTU then
      .ok { c with regs := c.regs.writeU rd (if c.regs.readU rs < c.regs.readU rt then 1 else 0) } mem
    else if funct = FUNCT_SEQ then
      .ok { c with regs := c.regs.writeU rd (if c.regs.readU rs = c.regs.readU rt then 1 else 0) } mem
    else if funct = FUNCT_SLL then
      .ok { c with regs := c.regs.writeU rd (c.regs.readU rt <<< shamt) } mem
    else if funct = FUNCT_SRL then
      .ok { c with regs := c.regs.writeU rd (c.regs.readU rt >>> shamt) } mem
    else if funct = FUNCT_SRA then
      -- int32 arithmetic right shift.
      .ok { c with regs := c.regs.writeS rd (c.regs.readS rt >>> shamt) } mem
    else if funct = FUNCT_SLLV then
      let sh := c.regs.readU rs &&& 0x1F
      .ok { c with regs := c.regs.writeU rd (c.regs.readU rt <<< sh) } mem
    else if funct = FUNCT_SRLV then
      let sh := c.regs.readU rs &&& 0x1F
      .ok { c with regs := c.regs.writeU rd (c.regs.readU rt >>> sh) } mem
    else if funct = FUNCT_SRAV then
      let sh := c.regs.readU rs &&& 0x1F
      .ok { c with regs := c.regs.writeS rd (c.regs.readS rt >>> sh) } mem
    else if funct = FUNCT_MULT then
      let p : Int := c.regs.readS rs * c.regs.readS rt
      let up : Nat := toU64 p
      .ok { c with regs := ((c.regs.write_hiU (up >>> 32)).write_loU (up &&& 0xFFFFFFFF)) } mem
    else if funct = FUNCT_MULTU then
      let p := c.regs.readU rs * c.regs.readU rt
      .ok { c with regs := ((c.regs.write_hiU (p >>> 32)).write_loU (p &&& 0xFFFFFFFF)) } mem
    else if funct = FUNCT_DIV then
      let a : Int := c.regs.readS rs
      let b : Int := c.regs.readS rt
      if b = 0 then .trap "MIPS divide by zero (div)"
      else .ok { c with regs := ((c.regs.write_loS (a.tdiv b)).write_hiS (a.tmod b)) } mem
    else if funct = FUNCT_DIVU then
      let a := c.regs.readU rs
      let b := c.regs.readU rt
      if b = 0 then .trap "MIPS divide by zero (divu)"
      else .ok { c with regs := ((c.regs.write_loU (a / b)).write_hiU (a % b)) } mem
    else if funct = FUNCT_MFHI then
      .ok { c with regs := c.regs.writeU rd c.regs.hi } mem
    else if funct = FUNCT_MFLO then
      .ok { c with regs := c.regs.writeU rd c.regs.lo } mem
    else if funct = FUNCT_MTHI then
      .ok { c with regs := c.regs.write_hiU (c.regs.readU rs) } mem
    else if funct = FUNCT_MTLO then
      .ok { c with regs := c.regs.write_loU (c.regs.readU rs) } mem
    else if funct = FUNCT_JR then
      .ok { c with pc := c.regs.readU rs } mem
    else if funct = FUNCT_JALR then
      let ra := c.pc
      let c := { c with regs := c.regs.writeU 31 ra }
      .ok { c with pc := c.regs.readU rs } mem
    else if funct = FUNCT_SYSCALL then
      let service := c.regs.readU 2
      if service = 1 then .console 1
      else if service = 4 then .console 4
      else if service = 5 then .console 5
      else if service = 8 then .console 8
      else if service = 10 then .ok { c with halted := true } mem
      else if service = 11 then .console 11
      else if service = 12 then .console 12
      else .trap "Unknown or unimplemented syscall code in $v0"
    else .trap "Unknown R-type funct"
  else if opcode = OP_ADDI then
    let rs := (word >>> 21) &&& mask_bits 5
    let rt := (word >>> 16) &&& mask_bits 5
    let imm : Int := signExt16 (word &&& mask_bits 16)
    let a : Int := c.regs.readS rs
    let t : Int := a + imm
    if t < -(2 ^ 31) ∨ t > 2 ^ 31 - 1 then .trap "MIPS integer overflow on addi"
    else .ok { c with regs := c.regs.writeS rt t } mem
  else if opcode = OP_ADDIU then
    let rs := (word >>> 21) &&& mask_bits 5
    let rt := (word >>> 16) &&& mask_bits 5
    let imm : Int := signExt16 (word &&& mask_bits 16)
    -- int32 r = a + imm: two's-complement wraparound, no trap.
    .ok { c with regs := c.regs.writeS rt (c.regs.readS rs + imm) } mem
  else if opcode = OP_ANDI then
    let rs := (word >>> 21) &&& mask_bits 5
    let rt := (word >>> 16) &&& mask_bits 5
    let imm := word &&& mask_bits 16
    .ok { c with regs := c.regs.writeU rt (c.regs.readU rs &&& imm) } mem
  else if opcode = OP_ORI then
    let rs := (word >>> 21) &&& mask_bits 5
    let rt := (word >>> 16) &&& mask_bits 5
    let imm := word &&& mask_bits 16
    .ok { c with regs := c.regs.writeU rt (c.regs.readU rs ||| imm) } mem
  else if opcode = OP_XORI then
    let rs := (word >>> 21) &&& mask_bits 5
    let rt := (word >>> 16) &&& mask_bits 5
    let imm := word &&& mask_bits 16
    .ok { c with regs := c.regs.writeU rt (c.regs.readU rs ^^^ imm) } mem
  else if opcode = OP_SLTI then
    let rs := (word >>> 21) &&& mask_bits 5
    let rt := (word >>> 16) &&& mask_bits 5
    let imm : Int := signExt16 (word &&& mask_bits 16)
    .ok { c with regs := c.regs.writeU rt (if c.regs.readS rs < imm then 1 else 0) } mem
  else if opcode = OP_SLTIU then
    let rs := (word >>> 21) &&& mask_bits 5
    let rt := (word >>> 16) &&& mask_bits 5
    let imm : Int := signExt16 (word &&& mask_bits 16)
    .ok { c with regs := c.regs.writeU rt (if c.regs.readU rs < toU32 imm then 1 else 0) } mem
  else if opcode = OP_LUI then
    let rt := (word >>> 16) &&& mask_bits 5
    let imm := word &&& mask_bits 16
    .ok { c with regs := c.regs.writeU rt (imm <<< 16) } mem
  else if opcode = OP_LB then
    let rs := (word >>> 21) &&& mask_bits 5
    let rt := (word >>> 16) &&& mask_bits 5
    let imm : Int := signExt16 (word &&& mask_bits 16)
    let addr := (c.regs.readU rs + toU32 imm) % 2 ^ 32
    match mem.load8 addr with
    | .error e => .trap e
    | .ok raw => .ok { c with regs := c.regs.writeS rt (toS8 raw) } mem
  else if opcode = OP_LBU then
    let rs := (word >>> 21) &&& mask_bits 5
    let rt := (word >>> 16) &&& mask_bits 5
    let imm : Int := signExt16 (word &&& mask_bits 16)
    let addr := (c.regs.readU rs + toU32 imm) % 2 ^ 32
    match mem.load8 addr with
    | .error e => .trap e
    | .ok raw => .ok { c with regs := c.regs.writeU rt raw } mem
  else if opcode = OP_LH then
    let rs := (word >>> 21) &&& mask_bits 5
    let rt := (word >>> 16) &&& mask_bits 5
    let imm : Int := signExt16 (word &&& mask_bits 16)
    let addr := (c.regs.readU rs + toU32 imm) % 2 ^ 32
    if addr &&& 0x1 ≠ 0 then .trap "MIPS lh: unaligned address"
    else
      match mem.load8 (addr + 0), mem.load8 (addr + 1) with
      | .ok b0, .ok b1 =>
          .ok { c with regs := c.regs.writeS rt (toS16 ((b0 <<< 8) ||| b1)) } mem
      | .error e, _ => .trap e
      | _, .error e => .trap e
  else if opcode = OP_LHU then
    let rs := (word >>> 21) &&& mask_bits 5
    let rt := (word >>> 16) &&& mask_bits 5
    let imm : Int := signExt16 (word &&& mask_bits 16)
    let addr := (c.regs.readU rs + toU32 imm) % 2 ^ 32
    if addr &&& 0x1 ≠ 0 then .trap "MIPS lhu: unaligned address"
    else
      match mem.load8 (addr + 0), mem.load8 (addr + 1) with
      | .ok b0, .ok b1 =>
          .ok { c with regs := c.regs.writeU rt ((b0 <<< 8) ||| b1) } mem
      | .error e, _ => .trap e
      | _, .error e => .trap e
  else if opcode = OP_LW then
    let rs := (word >>> 21) &&& mask_bits 5
    let rt := (word >>> 16) &&& mask_bits 5
    let imm : Int := signExt16 (word &&& mask_bits 16)
    let addr := (c.regs.readU rs + toU32 imm) % 2 ^ 32
    match mem.load32 addr with
    | .error e => .trap e
    | .ok val => .ok { c with regs := c.regs.writeU rt val } mem
  else if opcode = OP_SB then
    let rs := (word >>> 21) &&& mask_bits 5
    let rt := (word >>> 16) &&& mask_bits 5
    let imm : Int := signExt16 (word &&& mask_bits 16)
    let addr := (c.regs.readU rs + toU32 imm) % 2 ^ 32
    match mem.store8 addr (c.regs.readU rt &&& 0xFF) with
    | .error e => .trap e
    | .ok m => .ok c m
  else if opcode = OP_SH then
    let rs := (word >>> 21) &&& mask_bits 5
    let rt := (word >>> 16) &&& mask_bits 5
    let imm : Int := signExt16 (word &&& mask_bits 16)
    let addr := (c.regs.readU rs + toU32 imm) % 2 ^ 32
    if addr &&& 0x1 ≠ 0 then .trap "MIPS sh: unaligned address"
    else
      let val := c.regs.readU rt
      match mem.store8 addr ((val >>> 8) &&& 0xFF) with
      | .error e => .trap e
      | .ok m =>
          match m.store8 (addr + 1) (val &&& 0xFF) with
          | .error e => .trap e
          | .ok m => .ok c m
  else if opcode = OP_SW then
    let rs := (word >>> 21) &&& mask_bits 5
    let rt := (word >>> 16) &&& mask_bits 5
    let imm : Int := signExt16 (word &&& mask_bits 16)
    let addr := (c.regs.readU rs + toU32 imm) % 2 ^ 32
    match mem.store32 addr (c.regs.readU rt) with
    | .error e => .trap e
    | .ok m => .ok c m
  else if opcode = OP_BEQ then
    let rs := (word >>> 21) &&& mask_bits 5
    let rt := (word >>> 16) &&& mask_bits 5
    let offset := (toU32 (signExt16 (word &&& mask_bits 16)) <<< 2) % 2 ^ 32
    if c.regs.readU rs = c.regs.readU rt then .ok { c with pc := (c.pc + offset) % 2 ^ 32 } mem
    else .ok c mem
  else if opcode = OP_BNE then
    let rs := (word >>> 21) &&& mask_bits 5
    let rt := (word >>> 16) &&& mask_bits 5
    let offset := (toU32 (signExt16 (word &&& mask_bits 16)) <<< 2) % 2 ^ 32
    if c.regs.readU rs ≠ c.regs.readU rt then .ok { c with pc := (c.pc + offset) % 2 ^ 32 } mem
    else .ok c mem
  else if opcode = OP_BGTZ then
    let rs := (word >>> 21) &&& mask_bits 5
    let offset := (toU32 (signExt16 (word &&& mask_bits 16)) <<< 2) % 2 ^ 32
    if c.regs.readS rs > 0 then .ok { c with pc := (c.pc + offset) % 2 ^ 32 } mem
    else .ok c mem
  else if opcode = OP_BLEZ then
    let rs := (word >>> 21) &&& mask_bits 5
    let offset := (toU32 (signExt16 (word &&& mask_bits 16)) <<< 2) % 2 ^ 32
    if c.regs.readS rs ≤ 0 then .ok { c with pc := (c.pc + offset) % 2 ^ 32 } mem
    else .ok c mem
  else if opcode = OP_J then
    let target := word &&& mask_bits 26
    .ok { c with pc := (c.pc &&& 0xF0000000) ||| (target <<< 2) } mem
  else if opcode = OP_JAL then
    let target := word &&& mask_bits 26
    let ra := c.pc
    let c := { c with regs := c.regs.writeU 31 ra }
    .ok { c with pc := (c.pc &&& 0xF0000000) ||| (target <<< 2) } mem
  else .trap "Unknown opcode"

/-- `CPU::step`: fetch at PC, advance PC by 4, execute. -/
def CPU.step (c : CPU) (mem : Memory) : ExecResult :=
  match mem.load32 c.pc with
  | .error e => .trap e
  | .ok word => CPU.execute word { c with pc := (c.pc + 4) % 2 ^ 32 } mem

--==============================================================
-- Machine (Machine.h)
--==============================================================

/-- `Machine::BranchFixup`. -/
structure BranchFixup where
  instr_addr : Nat
  opcode : Nat
  rs : Nat
  rt : Nat
  label : String
deriving DecidableEq

/-- `Machine::JumpFixup`. -/
structure JumpFixup where
  instr_addr : Nat
  opcode : Nat
  label : String
deriving DecidableEq

/-- `Machine::LaFixup`. -/
structure LaFixup where
  instr_addr : Nat
  rt : Nat
  label : String
deriving DecidableEq

/-- The full machine: memory, CPU, segment cursors, symbol table and the
three fixup lists. The symbol table (`std::unordered_map`) is an
association list whose first matching entry is the binding. -/
structure Machine where
  mem : Memory
  cpu : CPU
  text_cursor : Nat
  data_cursor : Nat
  in_text_mode : Bool
  labels : List (String × Nat)
  branch_fixups : List BranchFixup
  jump_fixups : List JumpFixup
  la_fixups : List LaFixup

/-- `Machine::reset`: clear memory, registers, cursors, labels and
fixups, reset PC, set the stack pointer. The CPU `halted` flag is not
touched. -/
def Machine.reset (m : Machine) : Machine :=
  { mem := m.mem.reset
    cpu := { regs := (m.cpu.regs.reset).writeU 29 STACK_INIT
             pc := TEXT_BASE
             halted := m.cpu.halted }
    text_cursor := TEXT_BASE
    data_cursor := DATA_BASE
    in_text_mode := true
    labels := []
    branch_fixups := []
    jump_fixups := []
    la_fixups := [] }

/-- `Machine::has_label`. -/
def Machine.has_label (m : Machine) (name : String) : Bool :=
  (m.labels.lookup name).isSome

/-- `Machine::lookup_label`. -/
def Machine.lookup_label (m : Machine) (name : String) : Except String Nat :=
  match m.labels.lookup name with
  | none => .error ("Unknown label: " ++ name)
  | some a => .ok a

/-- `Machine::add_branch_fixup` (push_back). -/
def Machine.add_branch_fixup (m : Machine) (instr_addr opcode rs rt : Nat) (label : String) : Machine :=
  { m with branch_fixups := m.branch_fixups ++ [⟨instr_addr, opcode, rs, rt, label⟩] }

/-- `Machine::add_jump_fixup` (push_back). -/
def Machine.add_jump_fixup (m : Machine) (instr_addr opcode : Nat) (label : String) : Machine :=
  { m with jump_fixups := m.jump_fixups ++ [⟨instr_addr, opcode, label⟩] }

/-- `Machine::add_la_fixup` (push_back). -/
def Machine.add_la_fixup (m : Machine) (instr_addr rt : Nat) (label : String) : Machine :=
  { m with la_fixups := m.la_fixups ++ [⟨instr_addr, rt, label⟩] }

/-- `Machine::has_unresolved_fixups`. -/
def Machine.has_unresolved_fixups (m : Machine) : Bool :=
  !m.branch_fixups.isEmpty || !m.jump_fixups.isEmpty || !m.la_fixups.isEmpty

/-- `Machine::emit_text_word`: alignment and overflow checks, then a
store at the text cursor, which advances by 4. -/
def Machine.emit_text_word (m : Machine) (instr : Nat) : Except String Machine :=
  if m.text_cursor &&& 0x3 ≠ 0 then .error "emit_text_word: text_cursor not aligned"
  else if m.text_cursor + 4 > TEXT_LIMIT then .error "emit_text_word: text segment overflow"
  else
    match m.mem.store32 m.text_cursor instr with
    | .error e => .error e
    | .ok mem => .ok { m with mem := mem, text_cursor := m.text_cursor + 4 }

/-- The patched word for a `BranchFixup` given the resolved target
address: the offset computation of `Machine::resolve_fixups_for`
(branch loop body). -/
def branchPatch (target_addr : Nat) (f : BranchFixup) : Except String Nat :=
  let instr_pc := f.instr_addr
  let diff : Int := toS32 target_addr - toS32 ((instr_pc + 4) % 2 ^ 32)
  if diff % 4 ≠ 0 then .error "Branch target not word-aligned"
  else
    let offset : Int := diff >>> 2
    if offset < -32768 ∨ offset > 32767 then .error "Branch offset out of 16-bit range"
    else
      let imm : Nat := (offset % 65536).toNat
      .ok ((f.opcode <<< 26) ||| (f.rs <<< 21) ||| (f.rt <<< 16) ||| imm)

/-- The branch-fixup loop of `Machine::resolve_fixups_for`: index walk
with swap-and-pop removal of every fixup whose label matches. -/
def resolveBranchLoop (target_addr : Nat) (lbl : String)
    (l : List BranchFixup) (i : Nat) (mem : Memory) :
    Except String (List BranchFixup × Memory) :=
  if h : i < l.length then
    let f := l.get ⟨i, h⟩
    if f.label ≠ lbl then resolveBranchLoop target_addr lbl l (i + 1) mem
    else
      match branchPatch target_addr f with
      | .error e => .error e
      | .ok word =>
        match mem.store32 f.instr_addr word with
        | .error e => .error e
        | .ok mem' =>
          -- l[i] = l.back(); l.pop_back()
          resolveBranchLoop target_addr lbl ((l.set i (l.getLastD f)).dropLast) i mem'
  else .ok (l, mem)
termination_by l.length - i
decreasing_by
  · omega
  · simp only [List.length_dropLast, List.length_set]; omega

/-- The patched word for a `JumpFixup` given the resolved target. -/
def jumpPatch (target_addr : Nat) (f : JumpFixup) : Except String Nat :=
  if target_addr &&& 0x3 ≠ 0 then .error "Jump target not word-aligned"
  else .ok ((f.opcode <<< 26) ||| ((target_addr >>> 2) &&& 0x03FFFFFF))

/-- The jump-fixup loop of `Machine::resolve_fixups_for`. -/
def resolveJumpLoop (target_addr : Nat) (lbl : String)
    (l : List JumpFixup) (i : Nat) (mem : Memory) :
    Except String (List JumpFixup × Memory) :=
  if h : i < l.length then
    let f := l.get ⟨i, h⟩
    if f.label ≠ lbl then resolveJumpLoop target_addr lbl l (i + 1) mem
    else
      match jumpPatch target_addr f with
      | .error e => .error e
      | .ok word =>
        match mem.store32 f.instr_addr word with
        | .error e => .error e
        | .ok mem' => resolveJumpLoop target_addr lbl ((l.set i (l.getLastD f)).dropLast) i mem'
  else .ok (l, mem)
termination_by l.length - i
decreasing_by
  · omega
  · simp only [List.length_dropLast, List.length_set]; omega

/-- The la-fixup patching of one `LaFixup`: overwrite the low 16 bits of
the LUI word at `instr_addr` with `hi` and of the ORI word at
`instr_addr + 4` with `lo`. -/
def laPatch (target_addr : Nat) (f : LaFixup) (mem : Memory) : Except String Memory :=
  let hi := (target_addr >>> 16) &&& 0xFFFF
  let lo := target_addr &&& 0xFFFF
  match mem.load32 f.instr_addr with
  | .error e => .error e
  | .ok lui_word =>
    match mem.store32 f.instr_addr ((lui_word &&& 0xFFFF0000) ||| hi) with
    | .error e => .error e
    | .ok mem' =>
      match mem'.load32 (f.instr_addr + 4) with
      | .error e => .error e
      | .ok ori_word => mem'.store32 (f.instr_addr + 4) ((ori_word &&& 0xFFFF0000) ||| lo)

/-- The la-fixup loop of `Machine::resolve_fixups_for`. -/
def resolveLaLoop (target_addr : Nat) (lbl : String)
    (l : List LaFixup) (i : Nat) (mem : Memory) :
    Except String (List LaFixup × Memory) :=
  if h : i < l.length then
    let f := l.get ⟨i, h⟩
    if f.label ≠ lbl then resolveLaLoop target_addr lbl l (i + 1) mem
    else
      match laPatch target_addr f mem with
      | .error e => .error e
      | .ok mem' => resolveLaLoop target_addr lbl ((l.set i (l.getLastD f)).dropLast) i mem'
  else .ok (l, mem)
termination_by l.length - i
decreasing_by
  · omega
  · simp only [List.length_dropLast, List.length_set]; omega

/-- `Machine::resolve_fixups_for`: patch and remove every fixup whose
label matches, in list order branch/jump/la. -/
def Machine.resolve_fixups_for (m : Machine) (label : String) : Except String Machine :=
  match m.labels.lookup label with
  | none => .ok m
  | some target_addr =>
    match resolveBranchLoop target_addr label m.branch_fixups 0 m.mem with
    | .error e => .error e
    | .ok (bf, mem1) =>
      match resolveJumpLoop target_addr label m.jump_fixups 0 mem1 with
      | .error e => .error e
      | .ok (jf, mem2) =>
        match resolveLaLoop target_addr label m.la_fixups 0 mem2 with
        | .error e => .error e
        | .ok (lf, mem3) =>
          .ok { m with mem := mem3, branch_fixups := bf, jump_fixups := jf, la_fixups := lf }

/-- `Machine::define_label`: error if the name is already bound, else
bind it and resolve pending fixups. (On a resolver throw the C++ leaves
the label inserted; the `Except` model discards the partial state, which
no caller observes.) -/
def Machine.define_label (m : Machine) (name : String) (addr : Nat) : Except String Machine :=
  match m.labels.lookup name with
  | some _ => .error ("Label redefined: " ++ name)
  | none => Machine.resolve_fixups_for { m with labels := (name, addr) :: m.labels } name

--==============================================================
-- Tokens (Token.h) and character helpers (Lexer.h)
--==============================================================

/-- Token kinds of Token.h. -/
inductive TokenType where
  | IDENTIFIER
  | REGISTER
  | INT
  | STRING
  | COMMA
  | LPAREN
  | RPAREN
  | COLON
  | ERROR
  | EOL
deriving DecidableEq

/-- A token: kind plus source span. -/
structure Token where
  type : TokenType
  line : Nat
  pos : Nat
  len : Nat
deriving DecidableEq

/-- `Token::get_string`: `s.substr(pos, len)`. Source lines are modeled
as `List Char`. -/
def Token.get_string (t : Token) (line : List Char) : String :=
  String.mk ((line.drop t.pos).take t.len)

/-- `is_alpha` from Lexer.h. -/
def is_alpha (c : Char) : Bool := decide (('a' ≤ c ∧ c ≤ 'z') ∨ ('A' ≤ c ∧ c ≤ 'Z'))

/-- `is_num` from Lexer.h. -/
def is_num (c : Char) : Bool := decide ('0' ≤ c ∧ c ≤ '9')

/-- `is_alphanum` from Lexer.h. -/
def is_alphanum (c : Char) : Bool := is_alpha c || is_num c

/-- `is_ident_start` from Lexer.h. -/
def is_ident_start (c : Char) : Bool := is_alpha c || c = '_' || c = '.'

/-- `is_ident_char` from Lexer.h. -/
def is_ident_char (c : Char) : Bool := is_ident_start c || is_num c

/-- `is_register_start` from Lexer.h. -/
def is_register_start (c : Char) : Bool := c = '$'

/-- `is_comment_start` from Lexer.h. -/
def is_comment_start (c : Char) : Bool := c = '#'

/-- `is_whitespace` from Lexer.h. -/
def is_whitespace (c : Char) : Bool := c = ' ' || c = '\t' || c = '\r'

/-- `is_lowercase` from Lexer.h. -/
def is_lowercase (c : Char) : Bool := decide ('a' ≤ c ∧ c ≤ 'z')

/-- `lowercase` from Lexer.h (`c - 'A' + 'a'` on the character code). -/
def lowercase (c : Char) : Char :=
  if is_lowercase c then c else Char.ofNat (c.toNat - 'A'.toNat + 'a'.toNat)

/-- `is_hex_digit` from Lexer.h. -/
def is_hex_digit (c : Char) : Bool :=
  is_num c || decide ('a' ≤ c ∧ c ≤ 'f') || decide ('A' ≤ c ∧ c ≤ 'F')

/-- `is_oct_digit` from Lexer.h. -/
def is_oct_digit (c : Char) : Bool := decide ('0' ≤ c ∧ c ≤ '7')

--==============================================================
-- Instruction metadata (Constants.h)
--==============================================================

/-- Shapes of `InstrType`. -/
inductive InstrType where
  | R3
  | RSHIFT
  | I_ARITH
  | I_LS
  | I_BRANCH
  | I_BRANCH1
  | JUMP
  | SYSCALL
  | JR_JALR
  | R_HILO1
  | R_HILO2
deriving DecidableEq

/-- `InstrInfo`: shape, opcode, funct. -/
structure InstrInfo where
  type : InstrType
  opcode : Nat
  funct : Nat
deriving DecidableEq

/-- `PseudoType`. -/
inductive PseudoType where
  | ABS
  | NEG
  | NEGU
  | NOT
  | MUL
  | DIV3
  | SGE
  | SGT
  | BLT
  | BLE
  | BGT
  | BGE
  | B
  | LI
  | LA
  | MOVE
  | LW_LABEL
deriving DecidableEq

/-- `PATTERNS`: expected token pattern per shape, after the mnemonic. -/
def PATTERNS : InstrType → List TokenType
  | .R3 => [.REGISTER, .COMMA, .REGISTER, .COMMA, .REGISTER, .EOL]
  | .RSHIFT => [.REGISTER, .COMMA, .REGISTER, .COMMA, .INT, .EOL]
  | .I_ARITH => [.REGISTER, .COMMA, .REGISTER, .COMMA, .INT, .EOL]
  | .I_LS => [.REGISTER, .COMMA, .INT, .LPAREN, .REGISTER, .RPAREN, .EOL]
  | .I_BRANCH => [.REGISTER, .COMMA, .REGISTER, .COMMA, .IDENTIFIER, .EOL]
  | .I_BRANCH1 => [.REGISTER, .COMMA, .IDENTIFIER, .EOL]
  | .JUMP => [.IDENTIFIER, .EOL]
  | .SYSCALL => [.EOL]
  | .JR_JALR => [.REGISTER, .EOL]
  | .R_HILO1 => [.REGISTER, .EOL]
  | .R_HILO2 => [.REGISTER, .COMMA, .REGISTER, .EOL]

/-- `REG_TABLE`: register names to numbers. -/
def REG_TABLE : List (String × Nat) :=
  [("$zero", 0), ("$0", 0),
   ("$at", 1), ("$1", 1),
   ("$v0", 2), ("$2", 2), ("$v1", 3), ("$3", 3),
   ("$a0", 4), ("$4", 4), ("$a1", 5), ("$5", 5),
   ("$a2", 6), ("$6", 6), ("$a3", 7), ("$7", 7),
   ("$t0", 8), ("$8", 8), ("$t1", 9), ("$9", 9),
   ("$t2", 10), ("$10", 10), ("$t3", 11), ("$11", 11),
   ("$t4", 12), ("$12", 12), ("$t5", 13), ("$13", 13),
   ("$t6", 14), ("$14", 14), ("$t7", 15), ("$15", 15),
   ("$s0", 16), ("$16", 16), ("$s1", 17), ("$17", 17),
   ("$s2", 18), ("$18", 18), ("$s3", 19), ("$19", 19),
   ("$s4", 20), ("$20", 20), ("$s5", 21), ("$21", 21),
   ("$s6", 22), ("$22", 22), ("$s7", 23), ("$23", 23),
   ("$t8", 24), ("$24", 24), ("$t9", 25), ("$25", 25),
   ("$k0", 26), ("$26", 26), ("$k1", 27), ("$27", 27),
   ("$gp", 28), ("$28", 28), ("$sp", 29), ("$29", 29),
   ("$fp", 30), ("$s8", 30), ("$30", 30),
   ("$ra", 31), ("$31", 31)]

/-- `INSTR_TABLE`: mnemonic to instruction descriptor. -/
def INSTR_TABLE : List (String × InstrInfo) :=
  [("add", ⟨.R3, OP_RTYPE, FUNCT_ADD⟩),
   ("addu", ⟨.R3, OP_RTYPE, FUNCT_ADDU⟩),
   ("sub", ⟨.R3, OP_RTYPE, FUNCT_SUB⟩),
   ("subu", ⟨.R3, OP_RTYPE, FUNCT_SUBU⟩),
   ("and", ⟨.R3, OP_RTYPE, FUNCT_AND⟩),
   ("or", ⟨.R3, OP_RTYPE, FUNCT_OR⟩),
   ("xor", ⟨.R3, OP_RTYPE, FUNCT_XOR⟩),
   ("nor", ⟨.R3, OP_RTYPE, FUNCT_NOR⟩),
   ("slt", ⟨.R3, OP_RTYPE, FUNCT_SLT⟩),
   ("sltu", ⟨.R3, OP_RTYPE, FUNCT_SLTU⟩),
   ("seq", ⟨.R3, OP_RTYPE, FUNCT_SEQ⟩),
   ("mult", ⟨.R_HILO2, OP_RTYPE, FUNCT_MULT⟩),
   ("multu", ⟨.R_HILO2, OP_RTYPE, FUNCT_MULTU⟩),
   ("div", ⟨.R_HILO2, OP_RTYPE, FUNCT_DIV⟩),
   ("divu", ⟨.R_HILO2, OP_RTYPE, FUNCT_DIVU⟩),
   ("mfhi", ⟨.R_HILO1, OP_RTYPE, FUNCT_MFHI⟩),
   ("mflo", ⟨.R_HILO1, OP_RTYPE, FUNCT_MFLO⟩),
   ("mthi", ⟨.R_HILO1, OP_RTYPE, FUNCT_MTHI⟩),
   ("mtlo", ⟨.R_HILO1, OP_RTYPE, FUNCT_MTLO⟩),
   ("sll", ⟨.RSHIFT, OP_RTYPE, FUNCT_SLL⟩),
   ("srl", ⟨.RSHIFT, OP_RTYPE, FUNCT_SRL⟩),
   ("sra", ⟨.RSHIFT, OP_RTYPE, FUNCT_SRA⟩),
   ("sllv", ⟨.R3, OP_RTYPE, FUNCT_SLLV⟩),
   ("srlv", ⟨.R3, OP_RTYPE, FUNCT_SRLV⟩),
   ("srav", ⟨.R3, OP_RTYPE, FUNCT_SRAV⟩),
   ("jr", ⟨.JR_JALR, OP_RTYPE, FUNCT_JR⟩),
   ("jalr", ⟨.JR_JALR, OP_RTYPE, FUNCT_JALR⟩),
   ("syscall", ⟨.SYSCALL, OP_RTYPE, FUNCT_SYSCALL⟩),
   ("addi", ⟨.I_ARITH, OP_ADDI, FUNCT_NONE⟩),
   ("addiu", ⟨.I_ARITH, OP_ADDIU, FUNCT_NONE⟩),
   ("andi", ⟨.I_ARITH, OP_ANDI, FUNCT_NONE⟩),
   ("ori", ⟨.I_ARITH, OP_ORI, FUNCT_NONE⟩),
   ("xori", ⟨.I_ARITH, OP_XORI, FUNCT_NONE⟩),
   ("slti", ⟨.I_ARITH, OP_SLTI, FUNCT_NONE⟩),
   ("sltiu", ⟨.I_ARITH, OP_SLTIU, FUNCT_NONE⟩),
   ("lui", ⟨.I_ARITH, OP_LUI, FUNCT_NONE⟩),
   ("lw", ⟨.I_LS, OP_LW, FUNCT_NONE⟩),
   ("sw", ⟨.I_LS, OP_SW, FUNCT_NONE⟩),
   ("lb", ⟨.I_LS, OP_LB, FUNCT_NONE⟩),
   ("lbu", ⟨.I_LS, OP_LBU, FUNCT_NONE⟩),
   ("lh", ⟨.I_LS, OP_LH, FUNCT_NONE⟩),
   ("lhu", ⟨.I_LS, OP_LHU, FUNCT_NONE⟩),
   ("sb", ⟨.I_LS, OP_SB, FUNCT_NONE⟩),
   ("sh", ⟨.I_LS, OP_SH, FUNCT_NONE⟩),
   ("beq", ⟨.I_BRANCH, OP_BEQ, FUNCT_NONE⟩),
   ("bne", ⟨.I_BRANCH, OP_BNE, FUNCT_NONE⟩),
   ("bgtz", ⟨.I_BRANCH1, OP_BGTZ, FUNCT_NONE⟩),
   ("blez", ⟨.I_BRANCH1, OP_BLEZ, FUNCT_NONE⟩),
   ("bltz", ⟨.I_BRANCH1, OP_REGIMM, RT_BLTZ⟩),
   ("bgez", ⟨.I_BRANCH1, OP_REGIMM, RT_BGEZ⟩),
   ("j", ⟨.JUMP, OP_J, FUNCT_NONE⟩),
   ("jal", ⟨.JUMP, OP_JAL, FUNCT_NONE⟩)]

/-- `PSEUDO_TABLE`: pseudo-instruction names. -/
def PSEUDO_TABLE : List (String × PseudoType) :=
  [("abs", .ABS), ("neg", .NEG), ("negu", .NEGU), ("not", .NOT), ("mul", .MUL),
   ("sge", .SGE), ("sgt", .SGT),
   ("blt", .BLT), ("ble", .BLE), ("bgt", .BGT), ("bge", .BGE), ("b", .B),
   ("li", .LI), ("la", .LA), ("move", .MOVE)]

--==============================================================
-- Parser (Parser.h)
--==============================================================

/-- `static_cast<uint16_t>` of a signed value. -/
def toU16 (v : Int) : Nat := (v % 2 ^ 16).toNat

/-- Token access `toks[j]`. Out-of-range access on a `std::vector` is
undefined behavior in the source; the default below is never reached on
lines the lexer produced (every token list ends in `EOL` and the pattern
check bounds the indices used by the encoders). -/
def tokGet (toks : List Token) (j : Nat) : Token :=
  toks.getD j ⟨.EOL, 0, 0, 0⟩

/-- `Parser::get_instr_info`. -/
def get_instr_info (mnemonic : String) : Except String InstrInfo :=
  match INSTR_TABLE.lookup mnemonic with
  | none => .error ("Unknown instruction: " ++ mnemonic)
  | some info => .ok info

/-- `Parser::is_pseudo`. -/
def is_pseudo (mnem : String) : Bool :=
  (PSEUDO_TABLE.lookup mnem).isSome

/-- `Parser::get_pseudo`. -/
def get_pseudo (mnem : String) : Except String PseudoType :=
  match PSEUDO_TABLE.lookup mnem with
  | none => .error ("Unknown pseudo-instruction: " ++ mnem)
  | some p => .ok p

/-- `Parser::parse_register`. -/
def parse_register (tok : Token) (line : List Char) : Except String Nat :=
  if tok.type ≠ .REGISTER then .error "Expected register token"
  else
    let name := tok.get_string line
    match REG_TABLE.lookup name with
    | none => .error ("Invalid register name: " ++ name)
    | some r => .ok r

/-- The digit-accumulation loop of `Parser::parse_int_token`; `value`
is a `uint64_t`, so each step wraps modulo `2^64`. -/
def int_digit_loop (base : Nat) (textS : String) (cs : List Char) (value : Nat) : Except String Nat :=
  match cs with
  | [] => .ok value
  | c :: rest =>
    if base = 16 then
      if ¬ is_hex_digit c then .error ("Invalid hex digit in: " ++ textS)
      else
        let digit := if is_num c then c.toNat - '0'.toNat else 10 + ((lowercase c).toNat - 'a'.toNat)
        int_digit_loop base textS rest ((value * base + digit) % 2 ^ 64)
    else if base = 8 then
      if ¬ is_oct_digit c then .error ("Invalid octal digit in: " ++ textS)
      else int_digit_loop base textS rest ((value * base + (c.toNat - '0'.toNat)) % 2 ^ 64)
    else
      if ¬ is_num c then .error ("Invalid decimal digit in: " ++ textS)
      else int_digit_loop base textS rest ((value * base + (c.toNat - '0'.toNat)) % 2 ^ 64)

/-- `Parser::parse_int_token`: optional sign, base detection
(`0x`/`0X` hex, leading `0` octal, else decimal), digit loop, final
`int64_t` conversion. -/
def parse_int_token (tok : Token) (line : List Char) : Except String Int :=
  if tok.type ≠ .INT then .error "Expected integer token"
  else
    let text := (line.drop tok.pos).take tok.len
    let textS := String.mk text
    let n := text.length
    if n = 0 then .error "Empty integer token"
    else
      let negative := text.getD 0 ' ' = '-'
      let i0 := if negative then 1 else 0
      if i0 ≥ n then .error ("Invalid integer literal: " ++ textS)
      else if i0 + 1 < n ∧ text.getD i0 ' ' = '0' ∧
              (text.getD (i0 + 1) ' ' = 'x' ∨ text.getD (i0 + 1) ' ' = 'X') then
        if i0 + 2 ≥ n then .error ("Invalid hex literal: " ++ textS)
        else do
          let value ← int_digit_loop 16 textS (text.drop (i0 + 2)) 0
          .ok (if negative then -(toS64 value) else toS64 value)
      else if text.getD i0 ' ' = '0' then
        if i0 + 1 = n then .ok 0
        else do
          let value ← int_digit_loop 8 textS (text.drop (i0 + 1)) 0
          .ok (if negative then -(toS64 value) else toS64 value)
      else do
        let value ← int_digit_loop 10 textS (text.drop i0) 0
        .ok (if negative then -(toS64 value) else toS64 value)

/-- `Parser::parse_imm16_signed`. -/
def parse_imm16_signed (tok : Token) (line : List Char) : Except String Int := do
  let v ← parse_int_token tok line
  if v < -32768 ∨ v > 32767 then .error "Immediate out of 16-bit signed range"
  else .ok v

/-- `Parser::parse_imm16_unsigned`. -/
def parse_imm16_unsigned (tok : Token) (line : List Char) : Except String Nat := do
  let v ← parse_int_token tok line
  if v < 0 ∨ v > 0xFFFF then .error "Immediate out of 16-bit unsigned range"
  else .ok v.toNat

/-- `Parser::parse_imm32`. -/
def parse_imm32 (tok : Token) (line : List Char) : Except String Int := do
  let v ← parse_int_token tok line
  if v < -(2 ^ 31) ∨ v > 2 ^ 31 - 1 then .error "Immediate out of 32-bit range"
  else .ok v

/-- `Parser::parse_shamt`. -/
def parse_shamt (tok : Token) (line : List Char) : Except String Nat := do
  let v ← parse_int_token tok line
  if v < 0 ∨ v > 31 then .error "Shift amount out of range 0..31"
  else .ok v.toNat

/-- `Parser::expand_pseudo`: pseudo-instruction expansion. `words` is
the output vector passed by reference in the source (the callers pass it
empty); the updated machine carries any fixups the branch pseudos
record. -/
def expand_pseudo (m : Machine) (toks : List Token) (mnem_index : Nat)
    (line : List Char) (current_pc : Nat) (words : List Nat) :
    Except String (List Nat × Machine) := do
  let mnem := (tokGet toks mnem_index).get_string line
  let ptype ← get_pseudo mnem
  -- AT = REG_TABLE.at("$at"), ZERO = REG_TABLE.at("$zero")
  let AT : Nat := 1
  let ZERO : Nat := 0
  match ptype with
  | .MOVE => do
    let j := mnem_index + 1
    let rd ← parse_register (tokGet toks j) line
    let rs ← parse_register (tokGet toks (j + 2)) line
    let word := (OP_RTYPE <<< 26) ||| (rs <<< 21) ||| (ZERO <<< 16) ||| (rd <<< 11) |||
                (0 <<< 6) ||| FUNCT_ADDU
    .ok (words ++ [word], m)
  | .LI => do
    let j := mnem_index + 1
    let rt ← parse_register (tokGet toks j) line
    let imm ← parse_imm32 (tokGet toks (j + 2)) line
    if -32768 ≤ imm ∧ imm ≤ 32767 then
      let imm16 := toU16 imm
      let word := (OP_ADDI <<< 26) ||| (ZERO <<< 21) ||| (rt <<< 16) ||| imm16
      .ok (words ++ [word], m)
    else
      let uimm := toU32 imm
      let hi := (uimm >>> 16) &&& 0xFFFF
      let lo := uimm &&& 0xFFFF
      let lui_word := (OP_LUI <<< 26) ||| (ZERO <<< 21) ||| (AT <<< 16) ||| hi
      let ori_word := (OP_ORI <<< 26) ||| (AT <<< 21) ||| (rt <<< 16) ||| lo
      .ok (words ++ [lui_word, ori_word], m)
  | .LA => do
    let j := mnem_index + 1
    let rt ← parse_register (tokGet toks j) line
    if (tokGet toks (j + 2)).type ≠ .IDENTIFIER then .error "Expected label in la"
    else
      let label := (tokGet toks (j + 2)).get_string line
      if ¬ m.has_label label then .error ("Label not defined yet for la: " ++ label)
      else do
        let addr ← m.lookup_label label
        let hi := (addr >>> 16) &&& 0xFFFF
        let lo := addr &&& 0xFFFF
        let lui_word := (OP_LUI <<< 26) ||| (ZERO <<< 21) ||| (AT <<< 16) ||| hi
        let ori_word := (OP_ORI <<< 26) ||| (AT <<< 21) ||| (rt <<< 16) ||| lo
        .ok (words ++ [lui_word, ori_word], m)
  | .BLT | .BLE | .BGT | .BGE => do
    let j := mnem_index + 1
    let rs ← parse_register (tokGet toks j) line
    let rt ← parse_register (tokGet toks (j + 2)) line
    if (tokGet toks (j + 4)).type ≠ .IDENTIFIER then .error "Expected label in branch pseudo"
    else
      let label := (tokGet toks (j + 4)).get_string line
      -- 1) slt $at, A, B
      let slt_rs := if ptype = .BLT ∨ ptype = .BGE then rs else rt
      let slt_rt := if ptype = .BLT ∨ ptype = .BGE then rt else rs
      let slt_word := (OP_RTYPE <<< 26) ||| (slt_rs <<< 21) ||| (slt_rt <<< 16) |||
                      (AT <<< 11) ||| (0 <<< 6) ||| FUNCT_SLT
      let words := words ++ [slt_word]
      -- 2) branch using the existing fixup logic
      let opcode_branch := if ptype = .BLT ∨ ptype = .BGT then OP_BNE else OP_BEQ
      let instr_pc := current_pc + 4 * words.length
      if m.has_label label then do
        let target_addr ← m.lookup_label label
        let diff : Int := toS32 target_addr - toS32 ((instr_pc + 4) % 2 ^ 32)
        if diff % 4 ≠ 0 then .error "Branch target not word-aligned"
        else
          let offset : Int := diff >>> 2
          if offset < -32768 ∨ offset > 32767 then .error "Branch offset out of 16-bit range"
          else
            let imm := (offset % 65536).toNat
            let word_branch := (opcode_branch <<< 26) ||| (AT <<< 21) ||| (ZERO <<< 16) ||| imm
            .ok (words ++ [word_branch], m)
      else
        let word_branch := (opcode_branch <<< 26) ||| (AT <<< 21) ||| (ZERO <<< 16) ||| 0
        .ok (words ++ [word_branch], m.add_branch_fixup instr_pc opcode_branch AT ZERO label)
  | .B => do
    let j := mnem_index + 1
    if (tokGet toks j).type ≠ .IDENTIFIER then .error "Expected label in b pseudo"
    else
      let label := (tokGet toks j).get_string line
      let instr_pc := current_pc + 4 * words.length
      if m.has_label label then do
        let target_addr ← m.lookup_label label
        let diff : Int := toS32 target_addr - toS32 ((instr_pc + 4) % 2 ^ 32)
        if diff % 4 ≠ 0 then .error "Branch target not word-aligned"
        else
          let offset : Int := diff >>> 2
          if offset < -32768 ∨ offset > 32767 then .error "Branch offset out of 16-bit range"
          else
            let imm := (offset % 65536).toNat
            let word := (OP_BEQ <<< 26) ||| (ZERO <<< 21) ||| (ZERO <<< 16) ||| imm
            .ok (words ++ [word], m)
      else
        let word := (OP_BEQ <<< 26) ||| (ZERO <<< 21) ||| (ZERO <<< 16) ||| 0
        .ok (words ++ [word], m.add_branch_fixup instr_pc OP_BEQ ZERO ZERO label)
  | .ABS => do
    let j := mnem_index + 1
    let rd ← parse_register (tokGet toks j) line
    let rs ← parse_register (tokGet toks (j + 2)) line
    let sra_word := (OP_RTYPE <<< 26) ||| (0 <<< 21) ||| (rs <<< 16) ||| (AT <<< 11) |||
                    (31 <<< 6) ||| FUNCT_SRA
    let xor_word := (OP_RTYPE <<< 26) ||| (rs <<< 21) ||| (AT <<< 16) ||| (rd <<< 11) |||
                    (0 <<< 6) ||| FUNCT_XOR
    let subu_word := (OP_RTYPE <<< 26) ||| (rd <<< 21) ||| (AT <<< 16) ||| (rd <<< 11) |||
                     (0 <<< 6) ||| FUNCT_SUBU
    .ok (words ++ [sra_word, xor_word, subu_word], m)
  | .NEG => do
    let j := mnem_index + 1
    let rd ← parse_register (tokGet toks j) line
    let rs ← parse_register (tokGet toks (j + 2)) line
    let word := (OP_RTYPE <<< 26) ||| (ZERO <<< 21) ||| (rs <<< 16) ||| (rd <<< 11) |||
                (0 <<< 6) ||| FUNCT_SUB
    .ok (words ++ [word], m)
  | .NEGU => do
    let j := mnem_index + 1
    let rd ← parse_register (tokGet toks j) line
    let rs ← parse_register (tokGet toks (j + 2)) line
    let word := (OP_RTYPE <<< 26) ||| (ZERO <<< 21) ||| (rs <<< 16) ||| (rd <<< 11) |||
                (0 <<< 6) ||| FUNCT_SUBU
    .ok (words ++ [word], m)
  | .NOT => do
    let j := mnem_index + 1
    let rd ← parse_register (tokGet toks j) line
    let rs ← parse_register (tokGet toks (j + 2)) line
    let word := (OP_RTYPE <<< 26) ||| (rs <<< 21) ||| (ZERO <<< 16) ||| (rd <<< 11) |||
                (0 <<< 6) ||| FUNCT_NOR
    .ok (words ++ [word], m)
  | .SGT => do
    let j := mnem_index + 1
    let rd ← parse_register (tokGet toks j) line
    let rs ← parse_register (tokGet toks (j + 2)) line
    let rt ← parse_register (tokGet toks (j + 4)) line
    let word := (OP_RTYPE <<< 26) ||| (rt <<< 21) ||| (rs <<< 16) ||| (rd <<< 11) |||
                (0 <<< 6) ||| FUNCT_SLT
    .ok (words ++ [word], m)
  | .SGE => do
    let j := mnem_index + 1
    let rd ← parse_register (tokGet toks j) line
    let rs ← parse_register (tokGet toks (j + 2)) line
    let rt ← parse_register (tokGet toks (j + 4)) line
    let slt_word := (OP_RTYPE <<< 26) ||| (rs <<< 21) ||| (rt <<< 16) ||| (rd <<< 11) |||
                    (0 <<< 6) ||| FUNCT_SLT
    let xori_word := (OP_XORI <<< 26) ||| (rd <<< 21) ||| (rd <<< 16) ||| 1
    .ok (words ++ [slt_word, xori_word], m)
  | _ => .error ("Unknown pseudo-instruction: " ++ mnem)

/-- The operand-pattern loop of `Parser::assemble_text_line`: the tokens
from index `j` must match the pattern, ignoring its trailing `EOL`. -/
def pattern_check (toks : List Token) (j : Nat) : List TokenType → Bool
  | [] => true
  | [_] => true
  | p :: rest =>
    (decide (j < toks.length) && decide ((tokGet toks j).type = p)) && pattern_check toks (j + 1) rest

/-- `Parser::assemble_text_line`: optional leading label binding, empty
and pseudo dispatch, pattern validation, then the shape-encoding switch
(whose `default` arm rejects the I_BRANCH1 / R_HILO1 / R_HILO2 shapes). -/
def assemble_text_line (m : Machine) (toks : List Token) (line : List Char)
    (current_pc : Nat) : Except String (List Nat × Machine) :=
  if toks.isEmpty then .ok ([], m)  -- source prints a note and returns empty words
  else do
    -- LABEL:
    let (m, i) ←
      if (tokGet toks 0).type = .IDENTIFIER ∧ 1 < toks.length ∧ (tokGet toks 1).type = .COLON then do
        let m' ← m.define_label ((tokGet toks 0).get_string line) current_pc
        pure (m', 2)
      else pure (m, 0)
    if (tokGet toks i).type = .EOL then .ok ([], m)  -- empty or label-only line
    else if (tokGet toks i).type ≠ .IDENTIFIER then
      .error "Expected instruction mnemonic at start of line"
    else
      let mnemonic := (tokGet toks i).get_string line
      if is_pseudo mnemonic then expand_pseudo m toks i line current_pc []
      else do
        let info ← get_instr_info mnemonic
        let pattern := PATTERNS info.type
        if ¬ pattern_check toks (i + 1) pattern then .error "Unknown assembly pattern"
        else
          let j := i + 1
          match info.type with
          | .R3 => do
            let rd ← parse_register (tokGet toks j) line
            let rs ← parse_register (tokGet toks (j + 2)) line
            let rt ← parse_register (tokGet toks (j + 4)) line
            let word := (info.opcode <<< 26) ||| (rs <<< 21) ||| (rt <<< 16) ||| (rd <<< 11) |||
                        (0 <<< 6) ||| info.funct
            .ok ([word], m)
          | .RSHIFT => do
            let rd ← parse_register (tokGet toks j) line
            let rt ← parse_register (tokGet toks (j + 2)) line
            let shamt ← parse_shamt (tokGet toks (j + 4)) line
            let word := (info.opcode <<< 26) ||| (0 <<< 21) ||| (rt <<< 16) ||| (rd <<< 11) |||
                        (shamt <<< 6) ||| info.funct
            .ok ([word], m)
          | .I_ARITH => do
            let rt ← parse_register (tokGet toks j) line
            let rs ← parse_register (tokGet toks (j + 2)) line
            let imm16 ←
              if info.opcode = OP_ANDI ∨ info.opcode = OP_ORI then
                parse_imm16_unsigned (tokGet toks (j + 4)) line
              else do
                let s ← parse_imm16_signed (tokGet toks (j + 4)) line
                pure (toU16 s)
            let word := (info.opcode <<< 26) ||| (rs <<< 21) ||| (rt <<< 16) ||| imm16
            .ok ([word], m)
          | .I_LS => do
            let rt ← parse_register (tokGet toks j) line
            let offset ← parse_imm16_signed (tokGet toks (j + 2)) line
            let rs ← parse_register (tokGet toks (j + 4)) line
            let word := (info.opcode <<< 26) ||| (rs <<< 21) ||| (rt <<< 16) ||| toU16 offset
            .ok ([word], m)
          | .I_BRANCH => do
            let rs ← parse_register (tokGet toks j) line
            let rt ← parse_register (tokGet toks (j + 2)) line
            if (tokGet toks (j + 4)).type ≠ .IDENTIFIER then
              .error "Expected label identifier in branch"
            else
              let label := (tokGet toks (j + 4)).get_string line
              let instr_pc := current_pc
              if m.has_label label then do
                let target_addr ← m.lookup_label label
                let diff : Int := toS32 target_addr - toS32 ((instr_pc + 4) % 2 ^ 32)
                if diff % 4 ≠ 0 then .error "Branch target not word-aligned"
                else
                  let offset : Int := diff >>> 2
                  if offset < -32768 ∨ offset > 32767 then
                    .error "Branch offset out of 16-bit range"
                  else
                    let imm := (offset % 65536).toNat
                    let word := (info.opcode <<< 26) ||| (rs <<< 21) ||| (rt <<< 16) ||| imm
                    .ok ([word], m)
              else
                let word := (info.opcode <<< 26) ||| (rs <<< 21) ||| (rt <<< 16) ||| 0
                .ok ([word], m.add_branch_fixup instr_pc info.opcode rs rt label)
          | .JUMP => do
            if (tokGet toks j).type ≠ .IDENTIFIER then
              .error "Expected label identifier after jump"
            else
              let label := (tokGet toks j).get_string line
              let instr_pc := current_pc
              if m.has_label label then do
                let target_addr ← m.lookup_label label
                if target_addr &&& 0x3 ≠ 0 then .error "Jump target not word-aligned"
                else
                  let word := (info.opcode <<< 26) ||| ((target_addr >>> 2) &&& 0x03FFFFFF)
                  .ok ([word], m)
              else
                let word := (info.opcode <<< 26) ||| 0
                .ok ([word], m.add_jump_fixup instr_pc info.opcode label)
          | .SYSCALL =>
            let word := (info.opcode <<< 26) ||| (0 <<< 21) ||| (0 <<< 16) ||| (0 <<< 11) |||
                        (0 <<< 6) ||| info.funct
            .ok ([word], m)
          | .JR_JALR => do
            let rs ← parse_register (tokGet toks j) line
            let rd := if info.funct = FUNCT_JALR then 31 else 0
            let word := (info.opcode <<< 26) ||| (rs <<< 21) ||| (0 <<< 16) ||| (rd <<< 11) |||
                        (0 <<< 6) ||| info.funct
            .ok ([word], m)
          | _ => .error "Unknown instruction pattern"

--==============================================================
-- Lexer (Lexer.h)
--==============================================================

/-- `Lexer::State`. -/
inductive LexState where
  | DEFAULT
  | IN_IDENT
  | IN_REGISTER
  | IN_INT
  | IN_STRING
  | IN_CHAR
deriving DecidableEq

/-- Termination helper: 1 on `IN_INT`, else 0 (the model resolves an
integer literal in one step, so `IN_INT` can only be the very first
state and is left immediately). -/
def lexStateIsInt : LexState → Nat
  | .IN_INT => 1
  | _ => 0

/-- Termination helper: 0 on `DEFAULT`, else 1 (a lexeme-ending
transition back to `DEFAULT` re-examines the same character). -/
def lexStateRank : LexState → Nat
  | .DEFAULT => 0
  | _ => 1

/-- Number of consecutive characters satisfying `p` from index `j`: the
`while (i < n && p(s[i])) ++i;` loops of the lexer, as a count. -/
def consumeCount (p : Char → Bool) (s : List Char) (j : Nat) : Nat :=
  if j < s.length then
    if p (s.getD j ' ') then consumeCount p s (j + 1) + 1 else 0
  else 0
termination_by s.length - j

/-- End index of an integer literal starting at `start`: the `IN_INT`
case of `Lexer::lex_core` (optional `-`, then hex `0x`, octal leading
`0`, or decimal digits). -/
def lexIntEnd (s : List Char) (start : Nat) : Nat :=
  let p := if s.getD start ' ' = '-' then start + 1 else start
  if p + 1 < s.length ∧ s.getD p ' ' = '0' ∧ lowercase (s.getD (p + 1) ' ') = 'x' then
    (p + 2) + consumeCount is_hex_digit s (p + 2)
  else if p < s.length ∧ s.getD p ' ' = '0' then
    if p + 1 < s.length ∧ is_oct_digit (s.getD (p + 1) ' ') then
      (p + 1) + consumeCount is_oct_digit s (p + 1)
    else p + 1
  else (start + 1) + consumeCount is_num s (start + 1)

/-- The post-loop flush of `Lexer::lex_core`: emit any partial lexeme
(unterminated strings and chars become `ERROR` tokens). -/
def lexFlush (line_n : Nat) (st : LexState) (start i : Nat) : List Token :=
  match st with
  | .IN_IDENT => [⟨.IDENTIFIER, line_n, start, i - start⟩]
  | .IN_REGISTER => [⟨.REGISTER, line_n, start, i - start⟩]
  | .IN_INT => [⟨.INT, line_n, start, i - start⟩]
  | .IN_STRING => [⟨.ERROR, line_n, start, i - start⟩]
  | .IN_CHAR => [⟨.ERROR, line_n, start, i - start⟩]
  | .DEFAULT => []

/-- The character loop of `Lexer::lex_core`. One difference in shape to
the source, with the same output: on seeing the first character of an
integer literal the source sets `IN_INT` and consumes the whole literal
on the next loop iteration (or flushes it at end of line); the model
emits that token in the same step via `lexIntEnd`, so its `IN_INT` case
is never re-entered. -/
def lexLoop (s : List Char) (line_n : Nat) (i : Nat) (st : LexState) (start : Nat) : List Token :=
  if i < s.length then
    let c := s.getD i ' '
    match st with
    | .DEFAULT =>
      if is_whitespace c then lexLoop s line_n (i + 1) .DEFAULT start
      else if is_comment_start c then lexFlush line_n .DEFAULT start s.length
      else if c = ',' then ⟨.COMMA, line_n, i, 1⟩ :: lexLoop s line_n (i + 1) .DEFAULT start
      else if c = '(' then ⟨.LPAREN, line_n, i, 1⟩ :: lexLoop s line_n (i + 1) .DEFAULT start
      else if c = ')' then ⟨.RPAREN, line_n, i, 1⟩ :: lexLoop s line_n (i + 1) .DEFAULT start
      else if c = ':' then ⟨.COLON, line_n, i, 1⟩ :: lexLoop s line_n (i + 1) .DEFAULT start
      else if c = '"' then lexLoop s line_n (i + 1) .IN_STRING i
      else if c = '\'' then lexLoop s line_n (i + 1) .IN_CHAR i
      else if is_register_start c then lexLoop s line_n (i + 1) .IN_REGISTER i
      else if is_ident_start c then lexLoop s line_n (i + 1) .IN_IDENT i
      else if is_num c || (decide (c = '-') && decide (i + 1 < s.length) && is_num (s.getD (i + 1) ' ')) then
        let e := lexIntEnd s i
        ⟨.INT, line_n, i, e - i⟩ :: lexLoop s line_n e .DEFAULT i
      else ⟨.ERROR, line_n, i, 1⟩ :: lexLoop s line_n (i + 1) .DEFAULT start
    | .IN_REGISTER =>
      if is_alphanum c then lexLoop s line_n (i + 1) .IN_REGISTER start
      else ⟨.REGISTER, line_n, start, i - start⟩ :: lexLoop s line_n i .DEFAULT start
    | .IN_IDENT =>
      if is_ident_char c then lexLoop s line_n (i + 1) .IN_IDENT start
      else ⟨.IDENTIFIER, line_n, start, i - start⟩ :: lexLoop s line_n i .DEFAULT start
    | .IN_INT =>
      let e := lexIntEnd s start
      ⟨.INT, line_n, start, e - start⟩ :: lexLoop s line_n e .DEFAULT start
    | .IN_CHAR =>
      -- consume the body (escape or single char), then expect a closing quote
      let i1 := if c = '\\' then (if i + 1 < s.length then i + 2 else i + 1) else i + 1
      if i1 < s.length ∧ s.getD i1 ' ' = '\'' then
        ⟨.INT, line_n, start, (i1 + 1) - start⟩ :: lexLoop s line_n (i1 + 1) .DEFAULT start
      else
        ⟨.ERROR, line_n, start, i1 - start⟩ :: lexLoop s line_n i1 .DEFAULT start
    | .IN_STRING =>
      if c = '\\' then
        lexLoop s line_n (if i + 1 < s.length then i + 2 else i + 1) .IN_STRING start
      else if c ≠ '"' then lexLoop s line_n (i + 1) .IN_STRING start
      else ⟨.STRING, line_n, start, (i + 1) - start⟩ :: lexLoop s line_n (i + 1) .DEFAULT start
  else lexFlush line_n st start i
termination_by lexStateIsInt st * (2 * s.length + 4) + 2 * (s.length - i) + lexStateRank st
decreasing_by
  all_goals simp only [lexStateIsInt, lexStateRank, lexIntEnd]
  all_goals repeat' split
  all_goals omega

/-- `Lexer::lex_core`: tokenize one line. The body first executes
`state() = DEFAULT;`, so the member state `st0` the object carries never
influences the result; a trailing `EOL` token is always appended. -/
def lex_core (_st0 : LexState) (s : List Char) (line_n : Nat) : List Token :=
  lexLoop s line_n 0 .DEFAULT 0 ++ [⟨.EOL, line_n, s.length, 0⟩]

--==============================================================
-- Execution harness and concrete fixtures for the claims
--==============================================================

/-- Run a list of just-emitted instruction words in order, as the REPL
does via `CPU::step` once a line has no unresolved fixups (the fetch and
PC bump of `step` are immaterial for the straight-line words used
here). -/
def runWords (ws : List Nat) (c : CPU) (mem : Memory) : ExecResult :=
  match ws with
  | [] => .ok c mem
  | w :: rest =>
    match CPU.execute w c mem with
    | .ok c' mem' => runWords rest c' mem'
    | r => r

/-- Concrete fixture: a register file holding `a` in register 8 and `b`
in register 9 (all other registers zero). -/
def testRegs (a b : Nat) : RegisterFile :=
  ⟨(fun i => if i = 8 then a else if i = 9 then b else 0), 0, 0⟩

/-- Concrete fixture: a CPU at `TEXT_BASE` with `testRegs a b`. -/
def testCPU (a b : Nat) : CPU := ⟨testRegs a b, TEXT_BASE, false⟩

/-- Concrete fixture: empty memory. -/
def emptyMem : Memory := ⟨[]⟩

/-- Concrete fixture: the machine as constructed by `Machine()` (whose
constructor body calls `reset()`). -/
def machineInit : Machine :=
  Machine.reset
    { mem := ⟨[]⟩, cpu := ⟨⟨(fun _ => 0), 0, 0⟩, TEXT_BASE, false⟩,
      text_cursor := TEXT_BASE, data_cursor := DATA_BASE, in_text_mode := true,
      labels := [], branch_fixups := [], jump_fixups := [], la_fixups := [] }

--==============================================================
-- Generic bit-arithmetic lemmas
--==============================================================

theorem lor_eq_add {k a b : Nat} (h : b < 2 ^ k) (d : 2 ^ k ∣ a) : a ||| b = a + b := by
  obtain ⟨c, rfl⟩ := d
  exact (Nat.mul_add_lt_is_or h c).symm

theorem and_pow2_mod (x n : Nat) : x &&& (2 ^ n - 1) = x % 2 ^ n :=
  Nat.and_pow_two_sub_one_eq_mod x n

theorem bitfield_extract (x k w : Nat) : (x >>> k) &&& mask_bits w = x / 2 ^ k % 2 ^ w := by
  rw [mask_bits, Nat.shiftLeft_eq, one_mul, Nat.shiftRight_eq_div_pow,
    Nat.and_pow_two_sub_one_eq_mod]

theorem and_three_eq_mod (a : Nat) : a &&& 0x3 = a % 4 := by
  simpa using Nat.and_pow_two_sub_one_eq_mod a 2

--==============================================================
-- Memory lemmas
--==============================================================

theorem is_valid_iff (a : Nat) :
    Memory.is_valid_address a = true ↔ 0x400000 ≤ a ∧ a < 0x80000000 := by
  simp only [Memory.is_valid_address, Memory.is_text, Memory.is_data, Memory.is_stack,
    TEXT_BASE, TEXT_LIMIT, DATA_BASE, DATA_LIMIT, STACK_BASE, STACK_LIMIT,
    Bool.or_eq_true, decide_eq_true_eq]
  omega

theorem load8_valid (m : Memory) (a : Nat) (hv : Memory.is_valid_address a = true) :
    m.load8 a = .ok ((m.bytes.lookup a).getD 0) := by
  rw [Memory.load8]
  simp only [hv]
  cases m.bytes.lookup a <;> simp

theorem store8_valid (m : Memory) (a v : Nat) (hv : Memory.is_valid_address a = true) :
    m.store8 a v = .ok ⟨(a, v) :: m.bytes⟩ := by
  rw [Memory.store8]
  simp [hv]

theorem and_255_eq_mod (x : Nat) : x &&& 0xFF = x % 256 := by
  simpa using Nat.and_pow_two_sub_one_eq_mod x 8

theorem except_bind_ok {α β : Type} (a : α) (f : α → Except String β) :
    (Except.ok a >>= f) = f a := rfl

/-- Contiguity of the three segments: for a 4-byte-aligned address,
validity of `a + 3` already implies validity of all four bytes. -/
theorem valid_of_aligned_last (a : Nat) (h4 : a % 4 = 0)
    (hv : Memory.is_valid_address (a + 3) = true) :
    Memory.is_valid_address a = true ∧ Memory.is_valid_address (a + 1) = true ∧
    Memory.is_valid_address (a + 2) = true ∧ Memory.is_valid_address (a + 3) = true := by
  rw [is_valid_iff] at hv
  refine ⟨?_, ?_, ?_, ?_⟩ <;> rw [is_valid_iff] <;> omega

theorem load32_valid (m : Memory) (a : Nat) (h4 : a % 4 = 0)
    (h0 : Memory.is_valid_address a = true) (h1 : Memory.is_valid_address (a + 1) = true)
    (h2 : Memory.is_valid_address (a + 2) = true) (h3 : Memory.is_valid_address (a + 3) = true) :
    m.load32 a = .ok ((((m.bytes.lookup a).getD 0) <<< 24) |||
      (((m.bytes.lookup (a + 1)).getD 0) <<< 16) |||
      (((m.bytes.lookup (a + 2)).getD 0) <<< 8) |||
      ((m.bytes.lookup (a + 3)).getD 0)) := by
  rw [Memory.load32, and_three_eq_mod, if_neg (by omega), if_neg (by simp [h0, h1, h2, h3])]
  rw [show a + 0 = a from rfl, load8_valid m a h0]
  rw [except_bind_ok, load8_valid m (a + 1) h1, except_bind_ok, load8_valid m (a + 2) h2,
    except_bind_ok, load8_valid m (a + 3) h3, except_bind_ok]
  rfl

theorem store32_valid (m : Memory) (a v : Nat) (h4 : a % 4 = 0)
    (hv3 : Memory.is_valid_address (a + 3) = true) :
    m.store32 a v = .ok ⟨(a + 3, v &&& 0xFF) :: (a + 2, (v >>> 8) &&& 0xFF) ::
      (a + 1, (v >>> 16) &&& 0xFF) :: (a, (v >>> 24) &&& 0xFF) :: m.bytes⟩ := by
  obtain ⟨h0, h1, h2, h3⟩ := valid_of_aligned_last a h4 hv3
  rw [Memory.store32, and_three_eq_mod, if_neg (by omega), if_neg (by simp [hv3])]
  rw [show a + 0 = a from rfl, store8_valid m a _ h0, except_bind_ok,
    store8_valid _ (a + 1) _ h1, except_bind_ok, store8_valid _ (a + 2) _ h2, except_bind_ok,
    store8_valid _ (a + 3) _ h3]

/-- Big-endian byte recombination: the four bytes stored by `store32`
reassemble to `v` for `v < 2^32`. -/
theorem bytes_recombine (v : Nat) (hv : v < 2 ^ 32) :
    ((((v >>> 24) &&& 0xFF) <<< 24) ||| (((v >>> 16) &&& 0xFF) <<< 16)) |||
      (((v >>> 8) &&& 0xFF) <<< 8) ||| (v &&& 0xFF) = v := by
  have e24 : (((v >>> 24) &&& 0xFF) <<< 24) ||| (((v >>> 16) &&& 0xFF) <<< 16) =
      ((v >>> 24) &&& 0xFF) <<< 24 + ((v >>> 16) &&& 0xFF) <<< 16 := by
    refine lor_eq_add (k := 24) ?_ ?_
    · rw [and_255_eq_mod, Nat.shiftLeft_eq]; norm_num; omega
    · rw [Nat.shiftLeft_eq]; exact Dvd.dvd.mul_left dvd_rfl _
  have e16 : (((v >>> 24) &&& 0xFF) <<< 24 + ((v >>> 16) &&& 0xFF) <<< 16) |||
      (((v >>> 8) &&& 0xFF) <<< 8) =
      ((v >>> 24) &&& 0xFF) <<< 24 + ((v >>> 16) &&& 0xFF) <<< 16 +
        ((v >>> 8) &&& 0xFF) <<< 8 := by
    refine lor_eq_add (k := 16) ?_ ?_
    · rw [and_255_eq_mod, Nat.shiftLeft_eq]; norm_num; omega
    · refine Nat.dvd_add ?_ ?_ <;> rw [Nat.shiftLeft_eq]
      · exact Dvd.dvd.mul_left (by norm_num) _
      · exact Dvd.dvd.mul_left dvd_rfl _
  have e8 : (((v >>> 24) &&& 0xFF) <<< 24 + ((v >>> 16) &&& 0xFF) <<< 16 +
      ((v >>> 8) &&& 0xFF) <<< 8) ||| (v &&& 0xFF) =
      ((v >>> 24) &&& 0xFF) <<< 24 + ((v >>> 16) &&& 0xFF) <<< 16 +
        ((v >>> 8) &&& 0xFF) <<< 8 + (v &&& 0xFF) := by
    refine lor_eq_add (k := 8) ?_ ?_
    · rw [and_255_eq_mod]; omega
    · refine Nat.dvd_add (Nat.dvd_add ?_ ?_) ?_ <;> rw [Nat.shiftLeft_eq]
      · exact Dvd.dvd.mul_left (by norm_num) _
      · exact Dvd.dvd.mul_left (by norm_num) _
      · exact Dvd.dvd.mul_left dvd_rfl _
  rw [e24, e16, e8]
  simp only [and_255_eq_mod, Nat.shiftLeft_eq, Nat.shiftRight_eq_div_pow]
  norm_num
  omega

/-- C8: for every address inside one of the three segments that has
never been written, `load8` returns 0; `load8`/`store8` raise exactly
when the address lies outside all three segments; `load32`/`store32`
raise exactly when the address is not 4-byte aligned or one of the four
bytes lies outside the segments, and otherwise transfer the word
big-endian. -/
theorem C8_memory_bounds_alignment :
    ∀ (m : Memory) (a v : Nat),
      (Memory.is_valid_address a = true → m.bytes.lookup a = none → m.load8 a = .ok 0) ∧
      ((∃ e, m.load8 a = .error e) ↔ Memory.is_valid_address a = false) ∧
      ((∃ e, m.store8 a v = .error e) ↔ Memory.is_valid_address a = false) ∧
      ((∃ e, m.load32 a = .error e) ↔
        (a % 4 ≠ 0 ∨ ¬ (Memory.is_valid_address a = true ∧
          Memory.is_valid_address (a + 1) = true ∧ Memory.is_valid_address (a + 2) = true ∧
          Memory.is_valid_address (a + 3) = true))) ∧
      ((∃ e, m.store32 a v = .error e) ↔
        (a % 4 ≠ 0 ∨ ¬ (Memory.is_valid_address a = true ∧
          Memory.is_valid_address (a + 1) = true ∧ Memory.is_valid_address (a + 2) = true ∧
          Memory.is_valid_address (a + 3) = true))) ∧
      (a % 4 = 0 → Memory.is_valid_address (a + 3) = true → v < 2 ^ 32 →
        ∃ m', m.store32 a v = .ok m' ∧
          m'.load8 a = .ok ((v >>> 24) &&& 0xFF) ∧
          m'.load8 (a + 1) = .ok ((v >>> 16) &&& 0xFF) ∧
          m'.load8 (a + 2) = .ok ((v >>> 8) &&& 0xFF) ∧
          m'.load8 (a + 3) = .ok (v &&& 0xFF) ∧
          m'.load32 a = .ok v) := by
  intro m a v
  refine ⟨?_, ?_, ?_, ?_, ?_, ?_⟩
  · intro hv hnone
    rw [load8_valid m a hv, hnone]
    rfl
  · cases hv : Memory.is_valid_address a
    · simp [Memory.load8, hv]
    · rw [load8_valid m a hv]; simp
  · cases hv : Memory.is_valid_address a
    · simp [Memory.store8, hv]
    · rw [store8_valid m a v hv]; simp
  · by_cases h4 : a % 4 = 0
    · by_cases hall : Memory.is_valid_address a = true ∧ Memory.is_valid_address (a + 1) = true ∧
          Memory.is_valid_address (a + 2) = true ∧ Memory.is_valid_address (a + 3) = true
      · obtain ⟨h0, h1, h2, h3⟩ := hall
        rw [load32_valid m a h4 h0 h1 h2 h3]
        simp [h4, h0, h1, h2, h3]
      · rw [Memory.load32, and_three_eq_mod, if_neg (by omega), if_pos (by simpa using hall)]
        simp [h4, hall]
    · rw [Memory.load32, and_three_eq_mod, if_pos (by omega)]
      simp [h4]
  · by_cases h4 : a % 4 = 0
    · by_cases hv3 : Memory.is_valid_address (a + 3) = true
      · have hall := valid_of_aligned_last a h4 hv3
        rw [store32_valid m a v h4 hv3]
        simp [h4, hall]
      · have hnall : ¬ (Memory.is_valid_address a = true ∧
            Memory.is_valid_address (a + 1) = true ∧ Memory.is_valid_address (a + 2) = true ∧
            Memory.is_valid_address (a + 3) = true) := by
          intro hc; exact hv3 hc.2.2.2
        rw [Memory.store32, and_three_eq_mod, if_neg (by omega), if_pos (by simpa using hv3)]
        simp [h4, hnall]
    · rw [Memory.store32, and_three_eq_mod, if_pos (by omega)]
      simp [h4]
  · intro h4 hv3 hvlt
    obtain ⟨h0, h1, h2, h3⟩ := valid_of_aligned_last a h4 hv3
    rw [store32_valid m a v h4 hv3]
    refine ⟨_, rfl, ?_, ?_, ?_, ?_, ?_⟩
    · rw [load8_valid _ a h0]
      have e1 : a ≠ a + 3 := by omega
      have e2 : a ≠ a + 2 := by omega
      have e3 : a ≠ a + 1 := by omega
      simp [List.lookup, beq_eq_false_iff_ne.mpr e1, beq_eq_false_iff_ne.mpr e2,
        beq_eq_false_iff_ne.mpr e3]
    · rw [load8_valid _ (a + 1) h1]
      have e1 : a + 1 ≠ a + 3 := by omega
      have e2 : a + 1 ≠ a + 2 := by omega
      simp [List.lookup, beq_eq_false_iff_ne.mpr e1, beq_eq_false_iff_ne.mpr e2]
    · rw [load8_valid _ (a + 2) h2]
      have e1 : a + 2 ≠ a + 3 := by omega
      simp [List.lookup, beq_eq_false_iff_ne.mpr e1]
    · rw [load8_valid _ (a + 3) h3]
      simp [List.lookup]
    · rw [load32_valid _ a h4 h0 h1 h2 h3]
      have e1 : a ≠ a + 3 := by omega
      have e2 : a ≠ a + 2 := by omega
      have e3 : a ≠ a + 1 := by omega
      have e4 : a + 1 ≠ a + 3 := by omega
      have e5 : a + 1 ≠ a + 2 := by omega
      have e6 : a + 2 ≠ a + 3 := by omega
      simp only [List.lookup, beq_self_eq_true, beq_eq_false_iff_ne.mpr e1,
        beq_eq_false_iff_ne.mpr e2, beq_eq_false_iff_ne.mpr e3, beq_eq_false_iff_ne.mpr e4,
        beq_eq_false_iff_ne.mpr e5, beq_eq_false_iff_ne.mpr e6, Option.getD_some]
      exact congrArg Except.ok (bytes_recombine v hvlt)

/-- Witness for C8 at a concrete data-segment address. -/
theorem C8_witness :
    (Memory.mk []).load8 0x10000000 = .ok 0 ∧
    (∃ m', (Memory.mk []).store32 0x10000000 0x12345678 = .ok m' ∧
      m'.load32 0x10000000 = .ok 0x12345678) := by
  refine ⟨(C8_memory_bounds_alignment ⟨[]⟩ 0x10000000 0).1 (by decide) rfl, ?_⟩
  obtain ⟨m', hs, _, _, _, _, hl⟩ :=
    (C8_memory_bounds_alignment ⟨[]⟩ 0x10000000 0x12345678).2.2.2.2.2
      (by decide) (by decide) (by norm_num)
  exact ⟨m', hs, hl⟩

--==============================================================
-- RegisterFile lemmas
--==============================================================

theorem toU32_lt (v : Int) : toU32 v < 2 ^ 32 := by
  rw [toU32]
  have h1 : v % 2 ^ 32 < 2 ^ 32 := Int.emod_lt_of_pos v (by norm_num)
  omega

theorem readU_writeU_self (r : RegisterFile) (i v : Nat) (h : i ≠ 0) :
    (r.writeU i v).readU i = v % 2 ^ 32 := by
  simp [RegisterFile.writeU, RegisterFile.readU, h]

theorem readU_writeS_self (r : RegisterFile) (i : Nat) (v : Int) (h : i ≠ 0) :
    (r.writeS i v).readU i = toU32 v := by
  rw [RegisterFile.writeS, readU_writeU_self r i _ h, Nat.mod_eq_of_lt (toU32_lt v)]

theorem readU_writeU_other (r : RegisterFile) (i j v : Nat) (h : j ≠ i) :
    (r.writeU i v).readU j = r.readU j := by
  by_cases hi : i = 0 <;> simp [RegisterFile.writeU, RegisterFile.readU, hi, h]

theorem readU_writeU_zero (r : RegisterFile) (v : Nat) :
    (r.writeU 0 v).readU 0 = r.readU 0 := by
  simp [RegisterFile.writeU]

--==============================================================
-- C1: addu/subu/addiu trap behavior (CPU.h)
--==============================================================

/-- C1: the claim says ADDU, SUBU and ADDIU wrap modulo 2^32 and never
trap, and in particular that `addu` of `0xFFFFFFFF` and `1` writes 0.
The source's `FUNCT_ADDU`/`FUNCT_SUBU` handlers instead throw
"MIPS integer overflow" whenever the 64-bit sum or difference leaves
`[0, 2^32-1]` (a deviation the spec itself flags as a source bug, and
which the source's own TODO comment in Interpreter.h records as a bug to
fix). This theorem evaluates the embedded `CPU::execute` at the claim's
own example: `addu` with operands `0xFFFFFFFF` and `1` traps instead of
writing 0; `subu` of `0 - 1` also traps; only `addiu` wraps as
claimed. -/
theorem C1_addu_traps_on_carry :
    CPU.execute 0x01095021 (testCPU 0xFFFFFFFF 1) emptyMem =
      .trap "MIPS integer overflow on addu" ∧
    CPU.execute 0x01095023 (testCPU 0 1) emptyMem =
      .trap "MIPS integer overflow on subu" ∧
    (∃ c', CPU.execute 0x250A0001 (testCPU 0xFFFFFFFF 1) emptyMem = .ok c' emptyMem ∧
      c'.regs.readU 10 = 0) :=
  ⟨rfl, rfl, ⟨_, rfl, rfl⟩⟩

--==============================================================
-- C2: REGIMM (bltz/bgez) execution (CPU.h)
--==============================================================

/-- C2: the claim says words with opcode 0x01 (REGIMM) and rt 0 (BLTZ)
or 1 (BGEZ) execute as conditional branches. `CPU::execute` has no
`OP_REGIMM` case, so both fall into the `default:` arm and throw
"Unknown opcode". Evaluated at `bltz $zero, 0` (word `0x04000000`) and
`bgez $zero, 0` (word `0x04010000`), with a negative and a zero register
value respectively, so each claimed branch condition is exercised. -/
theorem C2_regimm_unknown_opcode :
    CPU.execute 0x04000000 (testCPU 0xFFFFFFFF 0) emptyMem = .trap "Unknown opcode" ∧
    CPU.execute 0x04010000 (testCPU 0 0) emptyMem = .trap "Unknown opcode" :=
  ⟨rfl, rfl⟩

--==============================================================
-- C5: signed overflow traps for add/sub/addi (CPU.h)
--==============================================================

/-- C5: for ADD and SUB (R-type) and ADDI, when the exact signed result
leaves `[-2^31, 2^31-1]` the CPU traps (returning no post-state, so no
register changes), and otherwise the destination is written with the
result (writes to register 0 being the register file's silent no-op);
for a nonzero destination the written register reads back as the
result's 32-bit pattern. -/
theorem C5_add_sub_addi_signed_overflow :
    ∀ (w : Nat) (c : CPU) (mem : Memory),
      ((w >>> 26) &&& mask_bits 6 = OP_RTYPE ∧ w &&& mask_bits 6 = FUNCT_ADD →
        (let t := c.regs.readS ((w >>> 21) &&& mask_bits 5) +
                  c.regs.readS ((w >>> 16) &&& mask_bits 5)
         ((t < -(2 ^ 31) ∨ t > 2 ^ 31 - 1) →
            CPU.execute w c mem = .trap "MIPS integer overflow on add") ∧
         (¬ (t < -(2 ^ 31) ∨ t > 2 ^ 31 - 1) →
            CPU.execute w c mem =
              .ok { c with regs := c.regs.writeS ((w >>> 11) &&& mask_bits 5) t } mem ∧
            ((w >>> 11) &&& mask_bits 5 ≠ 0 →
              (c.regs.writeS ((w >>> 11) &&& mask_bits 5) t).readU ((w >>> 11) &&& mask_bits 5) =
                toU32 t)))) ∧
      ((w >>> 26) &&& mask_bits 6 = OP_RTYPE ∧ w &&& mask_bits 6 = FUNCT_SUB →
        (let t := c.regs.readS ((w >>> 21) &&& mask_bits 5) -
                  c.regs.readS ((w >>> 16) &&& mask_bits 5)
         ((t < -(2 ^ 31) ∨ t > 2 ^ 31 - 1) →
            CPU.execute w c mem = .trap "MIPS integer overflow on sub") ∧
         (¬ (t < -(2 ^ 31) ∨ t > 2 ^ 31 - 1) →
            CPU.execute w c mem =
              .ok { c with regs := c.regs.writeS ((w >>> 11) &&& mask_bits 5) t } mem))) ∧
      ((w >>> 26) &&& mask_bits 6 = OP_ADDI →
        (let t := c.regs.readS ((w >>> 21) &&& mask_bits 5) + signExt16 (w &&& mask_bits 16)
         ((t < -(2 ^ 31) ∨ t > 2 ^ 31 - 1) →
            CPU.execute w c mem = .trap "MIPS integer overflow on addi") ∧
         (¬ (t < -(2 ^ 31) ∨ t > 2 ^ 31 - 1) →
            CPU.execute w c mem =
              .ok { c with regs := c.regs.writeS ((w >>> 16) &&& mask_bits 5) t } mem))) := by
  intro w c mem
  refine ⟨?_, ?_, ?_⟩
  · rintro ⟨h1, h2⟩
    refine ⟨?_, ?_⟩
    · intro ht
      simp only [CPU.execute, h1, h2, FUNCT_ADD, OP_RTYPE, if_pos rfl, reduceIte]
      exact if_pos ht
    · intro ht
      refine ⟨?_, ?_⟩
      · simp only [CPU.execute, h1, h2, FUNCT_ADD, OP_RTYPE, if_pos rfl, reduceIte]
        exact if_neg ht
      · intro hrd
        exact readU_writeS_self _ _ _ hrd
  · rintro ⟨h1, h2⟩
    refine ⟨?_, ?_⟩
    · intro ht
      simp only [CPU.execute, h1, h2, FUNCT_ADD, FUNCT_ADDU, FUNCT_SUB, OP_RTYPE,
        if_pos rfl, reduceIte]
      exact if_pos ht
    · intro ht
      simp only [CPU.execute, h1, h2, FUNCT_ADD, FUNCT_ADDU, FUNCT_SUB, OP_RTYPE,
        if_pos rfl, reduceIte]
      exact if_neg ht
  · intro h1
    refine ⟨?_, ?_⟩
    · intro ht
      simp only [CPU.execute, h1, OP_RTYPE, OP_ADDI, reduceIte]
      exact if_pos ht
    · intro ht
      simp only [CPU.execute, h1, OP_RTYPE, OP_ADDI, reduceIte]
      exact if_neg ht

/-- Witness for C5: `add` producing `INT32_MAX + 1` traps, and an
in-range `add` writes the destination. -/
theorem C5_witness :
    CPU.execute 0x01095020 (testCPU 0x7FFFFFFF 1) emptyMem =
      .trap "MIPS integer overflow on add" ∧
    CPU.execute 0x01095020 (testCPU 5 7) emptyMem =
      .ok { testCPU 5 7 with regs := (testCPU 5 7).regs.writeS 10 12 } emptyMem := by
  constructor
  · exact ((C5_add_sub_addi_signed_overflow 0x01095020 (testCPU 0x7FFFFFFF 1) emptyMem).1
      ⟨by decide, by decide⟩).1 (by decide)
  · have h := ((C5_add_sub_addi_signed_overflow 0x01095020 (testCPU 5 7) emptyMem).1
      ⟨by decide, by decide⟩).2 (by decide)
    exact h.1

--==============================================================
-- C10: reset does not touch the halted flag (Machine.h, CPU.h)
--==============================================================

/-- C10: neither `Machine::reset` nor `CPU::reset` changes the CPU's
`halted` flag, while every other piece of machine state (memory,
registers, HI/LO, PC, cursors, mode, labels, fixups) is reinitialized
and the stack pointer is set; so a machine halted by syscall 10 stays
halted across `reset`, and the REPL's `quit = machine.cpu.halted` check
still fires. -/
theorem C10_reset_preserves_halted :
    ∀ (m : Machine) (c : CPU),
      m.reset.cpu.halted = m.cpu.halted ∧
      c.reset.halted = c.halted ∧
      m.reset.mem = ⟨[]⟩ ∧
      (∀ i, m.reset.cpu.regs.x i = if i = 29 then STACK_INIT else 0) ∧
      m.reset.cpu.regs.hi = 0 ∧ m.reset.cpu.regs.lo = 0 ∧
      m.reset.cpu.pc = TEXT_BASE ∧
      m.reset.text_cursor = TEXT_BASE ∧ m.reset.data_cursor = DATA_BASE ∧
      m.reset.in_text_mode = true ∧
      m.reset.labels = [] ∧ m.reset.branch_fixups = [] ∧ m.reset.jump_fixups = [] ∧
      m.reset.la_fixups = [] ∧
      (∀ i, c.reset.regs.x i = 0) ∧ c.reset.pc = TEXT_BASE := by
  intro m c
  refine ⟨rfl, rfl, rfl, ?_, rfl, rfl, rfl, rfl, rfl, rfl, rfl, rfl, rfl, rfl,
    fun _ => rfl, rfl⟩
  intro i
  by_cases h : i = 29 <;>
    simp [Machine.reset, RegisterFile.writeU, RegisterFile.reset, h, STACK_INIT]

--==============================================================
-- C3: I_BRANCH1 / R_HILO1 / R_HILO2 assembly (Parser.h)
--==============================================================

/-- C3: the claim says syntactically valid lines whose mnemonic has
shape I_BRANCH1 (bgtz, blez, bltz, bgez), R_HILO1 (mfhi, mflo, mthi,
mtlo) or R_HILO2 (mult, multu, div, divu) assemble to their one-word
encodings. The encode switch of `Parser::assemble_text_line` has no
cases for these three shapes, so after the operand pattern validates,
the `default:` arm throws "Unknown instruction pattern". Evaluated on
the lines `mfhi $t0`, `mult $t0, $t1` and `bltz $t0, L` (each matching
its shape's token pattern, as the first three conjuncts record). -/
theorem C3_unimplemented_shapes_rejected :
    (INSTR_TABLE.lookup "mfhi").map (fun i => i.type) = some .R_HILO1 ∧
    (INSTR_TABLE.lookup "mult").map (fun i => i.type) = some .R_HILO2 ∧
    (INSTR_TABLE.lookup "bltz").map (fun i => i.type) = some .I_BRANCH1 ∧
    assemble_text_line machineInit
      [⟨.IDENTIFIER, 1, 0, 4⟩, ⟨.REGISTER, 1, 5, 3⟩, ⟨.EOL, 1, 8, 0⟩]
      "mfhi $t0".data TEXT_BASE = .error "Unknown instruction pattern" ∧
    assemble_text_line machineInit
      [⟨.IDENTIFIER, 1, 0, 4⟩, ⟨.REGISTER, 1, 5, 3⟩, ⟨.COMMA, 1, 8, 1⟩, ⟨.REGISTER, 1, 10, 3⟩,
       ⟨.EOL, 1, 13, 0⟩]
      "mult $t0, $t1".data TEXT_BASE = .error "Unknown instruction pattern" ∧
    assemble_text_line machineInit
      [⟨.IDENTIFIER, 1, 0, 4⟩, ⟨.REGISTER, 1, 5, 3⟩, ⟨.COMMA, 1, 8, 1⟩, ⟨.IDENTIFIER, 1, 10, 1⟩,
       ⟨.EOL, 1, 11, 0⟩]
      "bltz $t0, L".data TEXT_BASE = .error "Unknown instruction pattern" :=
  ⟨rfl, rfl, rfl, rfl, rfl, rfl⟩

--==============================================================
-- C4: la with an undefined label (Parser.h, Machine.h)
--==============================================================

/-- Counterexample to C4: the claim says `la rt, label` with an
undefined label emits the LUI/ORI pair with placeholder zeros and
records a `LaFixup` without failing the line. On the fresh machine
(where `msg` is unbound, as the second conjunct records),
`Parser::expand_pseudo` instead fails the line with "Label not defined
yet for la: msg". -/
theorem C4_counterexample :
    expand_pseudo machineInit
      [⟨.IDENTIFIER, 1, 0, 2⟩, ⟨.REGISTER, 1, 3, 3⟩, ⟨.COMMA, 1, 6, 1⟩, ⟨.IDENTIFIER, 1, 8, 3⟩,
       ⟨.EOL, 1, 11, 0⟩]
      0 "la $t0, msg".data TEXT_BASE [] = .error "Label not defined yet for la: msg" ∧
    machineInit.has_label "msg" = false :=
  ⟨rfl, rfl⟩

/-- C4 as amended: `la rt, label` requires the label to be already
defined (the source comments "For now we require the label to already be
defined"): with the label unbound the line fails with the diagnostic
above, and with the label bound to `addr` it emits exactly
`lui $at, hi(addr)` then `ori rt, $at, lo(addr)`. In neither case is a
`LaFixup` recorded — the machine comes back unchanged
(`Machine::add_la_fixup` has no caller in the source). -/
theorem C4_la_requires_defined_label :
    ∀ (m : Machine) (toks : List Token) (i : Nat) (line : List Char) (pc : Nat)
      (ws : List Nat) (rt : Nat),
      (tokGet toks i).get_string line = "la" →
      parse_register (tokGet toks (i + 1)) line = .ok rt →
      (tokGet toks (i + 3)).type = .IDENTIFIER →
      (m.has_label ((tokGet toks (i + 3)).get_string line) = false →
        expand_pseudo m toks i line pc ws =
          .error ("Label not defined yet for la: " ++ (tokGet toks (i + 3)).get_string line)) ∧
      (∀ addr, m.labels.lookup ((tokGet toks (i + 3)).get_string line) = some addr →
        expand_pseudo m toks i line pc ws =
          .ok (ws ++
            [(OP_LUI <<< 26) ||| (0 <<< 21) ||| (1 <<< 16) ||| ((addr >>> 16) &&& 0xFFFF),
             (OP_ORI <<< 26) ||| (1 <<< 21) ||| (rt <<< 16) ||| (addr &&& 0xFFFF)], m)) := by
  intro m toks i line pc ws rt hm hr hlbl
  have hps : get_pseudo ((tokGet toks i).get_string line) = .ok PseudoType.LA := by
    rw [hm]; rfl
  constructor
  · intro hnl
    simp [expand_pseudo, hps, hr, hlbl, hnl, except_bind_ok]
  · intro addr hlook
    have hhas : m.has_label ((tokGet toks (i + 3)).get_string line) = true := by
      simp [Machine.has_label, hlook]
    simp [expand_pseudo, hps, hr, hlbl, hhas, Machine.lookup_label, hlook, except_bind_ok]

/-- Witness for C4 (amended): on a machine where `msg` is bound to
`0x10000000`, `la $t0, msg` expands to the LUI/ORI pair carrying
hi = 0x1000 and lo = 0. -/
theorem C4_witness :
    expand_pseudo { machineInit with labels := [("msg", 0x10000000)] }
      [⟨.IDENTIFIER, 1, 0, 2⟩, ⟨.REGISTER, 1, 3, 3⟩, ⟨.COMMA, 1, 6, 1⟩, ⟨.IDENTIFIER, 1, 8, 3⟩,
       ⟨.EOL, 1, 11, 0⟩]
      0 "la $t0, msg".data TEXT_BASE [] =
      .ok ([0x3C011000, 0x34280000], { machineInit with labels := [("msg", 0x10000000)] }) := by
  have h := (C4_la_requires_defined_label { machineInit with labels := [("msg", 0x10000000)] }
    [⟨.IDENTIFIER, 1, 0, 2⟩, ⟨.REGISTER, 1, 3, 3⟩, ⟨.COMMA, 1, 6, 1⟩, ⟨.IDENTIFIER, 1, 8, 3⟩,
     ⟨.EOL, 1, 11, 0⟩]
    0 "la $t0, msg".data TEXT_BASE [] 8 rfl rfl rfl).2 0x10000000 rfl
  simpa using h

--==============================================================
-- C7: li expansion and execution (Parser.h, CPU.h)
--==============================================================

theorem and_ffff_eq_mod (x : Nat) : x &&& 0xFFFF = x % 65536 := by
  simpa using Nat.and_pow_two_sub_one_eq_mod x 16

theorem toU16_lt (v : Int) : toU16 v < 2 ^ 16 := by
  rw [toU16]
  have h1 : v % 2 ^ 16 < 2 ^ 16 := Int.emod_lt_of_pos v (by norm_num)
  omega

theorem signExt16_toU16 (imm : Int) (h1 : -32768 ≤ imm) (h2 : imm ≤ 32767) :
    signExt16 (toU16 imm) = imm := by
  have e1 : imm % 2 ^ 16 = imm ∨ imm % 2 ^ 16 = imm + 2 ^ 16 := by omega
  rw [signExt16, toU16]
  rcases e1 with e | e <;> rw [e] <;> split <;> omega

/-- Counterexample to C7: the claim quantifies over every `li rt, imm`,
including `rt = $zero`. `li $zero, 1` expands to `addi $zero, $zero, 1`
(word `0x20000001`), but executing that word leaves register 0 holding
0, not 1, because `RegisterFile::writeU` silently drops writes to
register 0. -/
theorem C7_counterexample :
    expand_pseudo machineInit
      [⟨.IDENTIFIER, 1, 0, 2⟩, ⟨.REGISTER, 1, 3, 5⟩, ⟨.COMMA, 1, 8, 1⟩, ⟨.INT, 1, 10, 1⟩,
       ⟨.EOL, 1, 11, 0⟩]
      0 "li $zero, 1".data TEXT_BASE [] = .ok ([0x20000001], machineInit) ∧
    (∃ c', runWords [0x20000001] (testCPU 0 0) emptyMem = .ok c' emptyMem ∧
      c'.regs.readU 0 = 0) ∧ (0 : Nat) ≠ 1 :=
  ⟨rfl, ⟨_, rfl, rfl⟩, by decide⟩

theorem execute_addi (w : Nat) (c : CPU) (mem : Memory)
    (hop : (w >>> 26) &&& mask_bits 6 = OP_ADDI) :
    CPU.execute w c mem =
      (if c.regs.readS ((w >>> 21) &&& mask_bits 5) + signExt16 (w &&& mask_bits 16) < -(2 ^ 31) ∨
          c.regs.readS ((w >>> 21) &&& mask_bits 5) + signExt16 (w &&& mask_bits 16) > 2 ^ 31 - 1
       then .trap "MIPS integer overflow on addi"
       else .ok { c with regs := (c.regs.writeS ((w >>> 16) &&& mask_bits 5) (c.regs.readS ((w >>> 21) &&& mask_bits 5) + signExt16 (w &&& mask_bits 16))) } mem) := by
  simp [CPU.execute, hop, OP_RTYPE, OP_ADDI]

theorem execute_lui (w : Nat) (c : CPU) (mem : Memory)
    (hop : (w >>> 26) &&& mask_bits 6 = OP_LUI) :
    CPU.execute w c mem =
      .ok { c with regs := (c.regs.writeU ((w >>> 16) &&& mask_bits 5) ((w &&& mask_bits 16) <<< 16)) } mem := by
  simp [CPU.execute, hop, OP_RTYPE, OP_ADDI, OP_ADDIU, OP_ANDI, OP_ORI, OP_XORI,
    OP_SLTI, OP_SLTIU, OP_LUI]

theorem execute_ori (w : Nat) (c : CPU) (mem : Memory)
    (hop : (w >>> 26) &&& mask_bits 6 = OP_ORI) :
    CPU.execute w c mem =
      .ok { c with regs := (c.regs.writeU ((w >>> 16) &&& mask_bits 5) (c.regs.readU ((w >>> 21) &&& mask_bits 5) ||| (w &&& mask_bits 16))) } mem := by
  simp [CPU.execute, hop, OP_RTYPE, OP_ADDI, OP_ADDIU, OP_ANDI, OP_ORI]

theorem and_mask16_eq_mod (w : Nat) : w &&& mask_bits 16 = w % 2 ^ 16 := by
  rw [mask_bits, Nat.shiftLeft_eq, one_mul]
  exact Nat.and_pow_two_sub_one_eq_mod w 16

/-- C7 as amended: for `li rt, imm` with `imm` inside `[-2^31, 2^31-1]`
(which `parse_imm32` enforces) and a destination other than register 0
(writes to `$zero` are the register file's silent no-op, see the
counterexample): a 16-bit-signed immediate expands to the single word
`addi rt, $zero, imm`, any other immediate to exactly
`lui $at, hi(imm)` then `ori rt, $at, lo(imm)`, and executing the
emitted words on a machine whose register 0 reads 0 leaves `rt` holding
the 32-bit pattern of `imm`. -/
theorem C7_li_expansion_and_execution :
    ∀ (m : Machine) (toks : List Token) (i : Nat) (line : List Char) (pc : Nat)
      (ws : List Nat) (rt : Nat) (imm : Int),
      (tokGet toks i).get_string line = "li" →
      parse_register (tokGet toks (i + 1)) line = .ok rt →
      parse_imm32 (tokGet toks (i + 3)) line = .ok imm →
      rt < 32 →
      (-32768 ≤ imm ∧ imm ≤ 32767 →
        expand_pseudo m toks i line pc ws =
          .ok (ws ++ [(OP_ADDI <<< 26) ||| (0 <<< 21) ||| (rt <<< 16) ||| toU16 imm], m)) ∧
      (¬ (-32768 ≤ imm ∧ imm ≤ 32767) →
        expand_pseudo m toks i line pc ws =
          .ok (ws ++
            [(OP_LUI <<< 26) ||| (0 <<< 21) ||| (1 <<< 16) ||| ((toU32 imm >>> 16) &&& 0xFFFF),
             (OP_ORI <<< 26) ||| (1 <<< 21) ||| (rt <<< 16) ||| (toU32 imm &&& 0xFFFF)], m)) ∧
      (∀ (c : CPU) (mem : Memory), c.regs.x 0 = 0 → rt ≠ 0 →
        (-32768 ≤ imm ∧ imm ≤ 32767 →
          ∃ c', runWords [(OP_ADDI <<< 26) ||| (0 <<< 21) ||| (rt <<< 16) ||| toU16 imm] c mem =
            .ok c' mem ∧ c'.regs.readU rt = toU32 imm) ∧
        (¬ (-32768 ≤ imm ∧ imm ≤ 32767) →
          ∃ c', runWords
            [(OP_LUI <<< 26) ||| (0 <<< 21) ||| (1 <<< 16) ||| ((toU32 imm >>> 16) &&& 0xFFFF),
             (OP_ORI <<< 26) ||| (1 <<< 21) ||| (rt <<< 16) ||| (toU32 imm &&& 0xFFFF)] c mem =
            .ok c' mem ∧ c'.regs.readU rt = toU32 imm)) := by
  intro m toks i line pc ws rt imm hm hr h32 hrt
  have hps : get_pseudo ((tokGet toks i).get_string line) = .ok PseudoType.LI := by
    rw [hm]; rfl
  refine ⟨?_, ?_, ?_⟩
  · intro hsm
    simp [expand_pseudo, hps, hr, h32, except_bind_ok, hsm]
  · intro hsm
    simp [expand_pseudo, hps, hr, h32, except_bind_ok, hsm]
  · intro c mem hz hne
    have hu16 := toU16_lt imm
    have hreadS0 : c.regs.readS 0 = 0 := by
      simp [RegisterFile.readS, RegisterFile.readU, hz, toS32]
    constructor
    · intro hsm
      set w : Nat := (OP_ADDI <<< 26) ||| (0 <<< 21) ||| (rt <<< 16) ||| toU16 imm with hwdef
      have t0 : (OP_ADDI <<< 26) ||| (0 <<< 21) = 8 * 2 ^ 26 := by
        simp [OP_ADDI, Nat.shiftLeft_eq]
      have e1 : (8 * 2 ^ 26 : Nat) ||| (rt <<< 16) = 8 * 2 ^ 26 + rt * 2 ^ 16 := by
        rw [Nat.shiftLeft_eq]
        exact lor_eq_add (k := 21) (by omega) (by omega)
      have e2 : (8 * 2 ^ 26 + rt * 2 ^ 16 : Nat) ||| toU16 imm =
          8 * 2 ^ 26 + rt * 2 ^ 16 + toU16 imm :=
        lor_eq_add (k := 16) (by omega) (by omega)
      have hw : w = 8 * 2 ^ 26 + rt * 2 ^ 16 + toU16 imm := by
        rw [hwdef, t0, e1, e2]
      have hop : (w >>> 26) &&& mask_bits 6 = OP_ADDI := by
        rw [bitfield_extract, hw, OP_ADDI]; omega
      have hrs : (w >>> 21) &&& mask_bits 5 = 0 := by
        rw [bitfield_extract, hw]; omega
      have hrtf : (w >>> 16) &&& mask_bits 5 = rt := by
        rw [bitfield_extract, hw]; omega
      have himm : w &&& mask_bits 16 = toU16 imm := by
        rw [and_mask16_eq_mod, hw]; omega
      have hex := execute_addi w c mem hop
      rw [hrs, hrtf, himm, hreadS0, signExt16_toU16 imm hsm.1 hsm.2] at hex
      rw [if_neg (by omega)] at hex
      refine ⟨{ c with regs := (c.regs.writeS rt (0 + imm)) }, ?_, ?_⟩
      · simp [runWords, hex]
      · show (c.regs.writeS rt (0 + imm)).readU rt = toU32 imm
        rw [zero_add]
        exact readU_writeS_self _ _ _ hne
    · intro hsm
      set u : Nat := toU32 imm with hudef
      have hult : u < 2 ^ 32 := toU32_lt imm
      set hi : Nat := (u >>> 16) &&& 0xFFFF with hhidef
      set lo : Nat := u &&& 0xFFFF with hlodef
      have hhilt : hi < 2 ^ 16 := by
        rw [hhidef, and_ffff_eq_mod]; omega
      have hlolt : lo < 2 ^ 16 := by
        rw [hlodef, and_ffff_eq_mod]; omega
      have hrecomb : hi * 2 ^ 16 + lo = u := by
        rw [hhidef, hlodef, and_ffff_eq_mod, and_ffff_eq_mod, Nat.shiftRight_eq_div_pow]
        omega
      set w1 : Nat := (OP_LUI <<< 26) ||| (0 <<< 21) ||| (1 <<< 16) ||| hi with hw1def
      set w2 : Nat := (OP_ORI <<< 26) ||| (1 <<< 21) ||| (rt <<< 16) ||| lo with hw2def
      have t1 : (OP_LUI <<< 26) ||| (0 <<< 21) = 15 * 2 ^ 26 := by
        simp [OP_LUI, Nat.shiftLeft_eq]
      have f1 : (15 * 2 ^ 26 : Nat) ||| (1 <<< 16) = 15 * 2 ^ 26 + 1 * 2 ^ 16 := by
        rw [Nat.shiftLeft_eq]
        exact lor_eq_add (k := 21) (by omega) (by omega)
      have f2 : (15 * 2 ^ 26 + 1 * 2 ^ 16 : Nat) ||| hi = 15 * 2 ^ 26 + 1 * 2 ^ 16 + hi :=
        lor_eq_add (k := 16) (by omega) (by omega)
      have hw1 : w1 = 15 * 2 ^ 26 + 1 * 2 ^ 16 + hi := by
        rw [hw1def, t1, f1, f2]
      have t2 : (OP_ORI <<< 26) ||| (1 <<< 21) = 13 * 2 ^ 26 + 1 * 2 ^ 21 := by
        rw [OP_ORI, Nat.shiftLeft_eq, Nat.shiftLeft_eq]
        exact lor_eq_add (k := 26) (by omega) (by omega)
      have g1 : (13 * 2 ^ 26 + 1 * 2 ^ 21 : Nat) ||| (rt <<< 16) =
          13 * 2 ^ 26 + 1 * 2 ^ 21 + rt * 2 ^ 16 := by
        rw [Nat.shiftLeft_eq]
        exact lor_eq_add (k := 21) (by omega) (by omega)
      have g2 : (13 * 2 ^ 26 + 1 * 2 ^ 21 + rt * 2 ^ 16 : Nat) ||| lo =
          13 * 2 ^ 26 + 1 * 2 ^ 21 + rt * 2 ^ 16 + lo :=
        lor_eq_add (k := 16) (by omega) (by omega)
      have hw2 : w2 = 13 * 2 ^ 26 + 1 * 2 ^ 21 + rt * 2 ^ 16 + lo := by
        rw [hw2def, t2, g1, g2]
      have hop1 : (w1 >>> 26) &&& mask_bits 6 = OP_LUI := by
        rw [bitfield_extract, hw1, OP_LUI]; omega
      have hrt1 : (w1 >>> 16) &&& mask_bits 5 = 1 := by
        rw [bitfield_extract, hw1]; omega
      have himm1 : w1 &&& mask_bits 16 = hi := by
        rw [and_mask16_eq_mod, hw1]; omega
      have hop2 : (w2 >>> 26) &&& mask_bits 6 = OP_ORI := by
        rw [bitfield_extract, hw2, OP_ORI]; omega
      have hrs2 : (w2 >>> 21) &&& mask_bits 5 = 1 := by
        rw [bitfield_extract, hw2]; omega
      have hrt2 : (w2 >>> 16) &&& mask_bits 5 = rt := by
        rw [bitfield_extract, hw2]; omega
      have himm2 : w2 &&& mask_bits 16 = lo := by
        rw [and_mask16_eq_mod, hw2]; omega
      have hex1 := execute_lui w1 c mem hop1
      rw [hrt1, himm1] at hex1
      have hread1 : ({ c with regs := (c.regs.writeU 1 (hi <<< 16)) } : CPU).regs.readU 1 =
          hi * 2 ^ 16 := by
        show (c.regs.writeU 1 (hi <<< 16)).readU 1 = hi * 2 ^ 16
        rw [readU_writeU_self _ _ _ (by norm_num), Nat.shiftLeft_eq]
        exact Nat.mod_eq_of_lt (by omega)
      have hex2 := execute_ori w2 { c with regs := (c.regs.writeU 1 (hi <<< 16)) } mem hop2
      rw [hrs2, hrt2, himm2, hread1] at hex2
      have hval : hi * 2 ^ 16 ||| lo = u := by
        rw [lor_eq_add (k := 16) (by omega) (by omega)]
        exact hrecomb
      rw [hval] at hex2
      refine ⟨{ c with regs := ((c.regs.writeU 1 (hi <<< 16)).writeU rt u) }, ?_, ?_⟩
      · simp [runWords, hex1, hex2]
      · show ((c.regs.writeU 1 (hi <<< 16)).writeU rt u).readU rt = toU32 imm
        rw [readU_writeU_self _ _ _ hne]
        exact Nat.mod_eq_of_lt (by omega)

/-- Witness for C7 (amended): `li $t0, 0x12345678` expands to the LUI
then ORI pair and executing them leaves `$t0` holding `0x12345678`. -/
theorem C7_witness :
    expand_pseudo machineInit
      [⟨.IDENTIFIER, 1, 0, 2⟩, ⟨.REGISTER, 1, 3, 3⟩, ⟨.COMMA, 1, 6, 1⟩, ⟨.INT, 1, 8, 10⟩,
       ⟨.EOL, 1, 18, 0⟩]
      0 "li $t0, 0x12345678".data TEXT_BASE [] = .ok ([0x3C011234, 0x34285678], machineInit) ∧
    (∃ c', runWords [0x3C011234, 0x34285678] (testCPU 0 0) emptyMem = .ok c' emptyMem ∧
      c'.regs.readU 8 = 0x12345678) := by
  have h := C7_li_expansion_and_execution machineInit
    [⟨.IDENTIFIER, 1, 0, 2⟩, ⟨.REGISTER, 1, 3, 3⟩, ⟨.COMMA, 1, 6, 1⟩, ⟨.INT, 1, 8, 10⟩,
     ⟨.EOL, 1, 18, 0⟩]
    0 "li $t0, 0x12345678".data TEXT_BASE [] 8 0x12345678 rfl rfl rfl (by omega)
  have hw1 : (OP_LUI <<< 26) ||| (0 <<< 21) ||| (1 <<< 16) |||
      ((toU32 0x12345678 >>> 16) &&& 0xFFFF) = 0x3C011234 := by decide
  have hw2 : (OP_ORI <<< 26) ||| (1 <<< 21) ||| (8 <<< 16) ||| (toU32 0x12345678 &&& 0xFFFF) =
      0x34285678 := by decide
  constructor
  · have h2 := h.2.1 (by omega)
    rw [hw1, hw2] at h2
    simpa using h2
  · obtain ⟨c', hrun, hread⟩ :=
      (h.2.2 (testCPU 0 0) emptyMem rfl (by omega)).2 (by omega)
    rw [hw1, hw2] at hrun
    exact ⟨c', hrun, by rw [hread]; decide⟩

/-- C9: `Lexer::lex_core` is total (it is a terminating Lean function,
so the source loop terminates and throws no exception on any input); its
result depends only on the line string and line number, not on the
lexer object's carried state (the body starts with `state() = DEFAULT;`);
the token list always ends with the `EOL` sentinel token; and the
end-of-line flush turns unterminated string and character literals into
`ERROR` tokens rather than exceptions. -/
theorem C9_lexer_total_pure_eol :
    ∀ (st : LexState) (s : List Char) (line_n : Nat),
      lex_core st s line_n = lex_core .DEFAULT s line_n ∧
      (∃ ts, lex_core st s line_n = ts ++ [⟨.EOL, line_n, s.length, 0⟩]) ∧
      (∀ start i, lexFlush line_n .IN_STRING start i = [⟨.ERROR, line_n, start, i - start⟩] ∧
          lexFlush line_n .IN_CHAR start i = [⟨.ERROR, line_n, start, i - start⟩]) :=
  fun _ s line_n => ⟨rfl, ⟨lexLoop s line_n 0 .DEFAULT 0, rfl⟩, fun _ _ => ⟨rfl, rfl⟩⟩

--==============================================================
-- C6 groundwork: memory lemmas
--==============================================================

theorem load32_ok_align (m : Memory) (a w : Nat) (h : m.load32 a = .ok w) : a % 4 = 0 := by
  by_cases h4 : a % 4 = 0
  · exact h4
  · rw [Memory.load32, and_three_eq_mod, if_pos (by omega)] at h
    cases h

theorem store32_ok_inv (m : Memory) (a v : Nat) (m₂ : Memory) (h : m.store32 a v = .ok m₂) :
    a % 4 = 0 ∧ Memory.is_valid_address (a + 3) = true ∧
    m₂.bytes = (a + 3, v &&& 0xFF) :: (a + 2, (v >>> 8) &&& 0xFF) ::
      (a + 1, (v >>> 16) &&& 0xFF) :: (a, (v >>> 24) &&& 0xFF) :: m.bytes := by
  by_cases h4 : a % 4 = 0
  · by_cases hv : Memory.is_valid_address (a + 3) = true
    · rw [store32_valid m a v h4 hv] at h
      cases h
      exact ⟨h4, hv, rfl⟩
    · rw [Memory.store32, and_three_eq_mod, if_neg (by omega), if_pos (by simpa using hv)] at h
      cases h
  · rw [Memory.store32, and_three_eq_mod, if_pos (by omega)] at h
    cases h

/-- General big-endian recombination: without a bound on `v`, the four
stored bytes reassemble to `v % 2^32`. -/
theorem bytes_recombine_mod (v : Nat) :
    ((((v >>> 24) &&& 0xFF) <<< 24) ||| (((v >>> 16) &&& 0xFF) <<< 16)) |||
      (((v >>> 8) &&& 0xFF) <<< 8) ||| (v &&& 0xFF) = v % 2 ^ 32 := by
  have e24 : (((v >>> 24) &&& 0xFF) <<< 24) ||| (((v >>> 16) &&& 0xFF) <<< 16) =
      ((v >>> 24) &&& 0xFF) <<< 24 + ((v >>> 16) &&& 0xFF) <<< 16 := by
    refine lor_eq_add (k := 24) ?_ ?_
    · rw [and_255_eq_mod, Nat.shiftLeft_eq]; norm_num; omega
    · rw [Nat.shiftLeft_eq]; exact Dvd.dvd.mul_left dvd_rfl _
  have e16 : (((v >>> 24) &&& 0xFF) <<< 24 + ((v >>> 16) &&& 0xFF) <<< 16) |||
      (((v >>> 8) &&& 0xFF) <<< 8) =
      ((v >>> 24) &&& 0xFF) <<< 24 + ((v >>> 16) &&& 0xFF) <<< 16 +
        ((v >>> 8) &&& 0xFF) <<< 8 := by
    refine lor_eq_add (k := 16) ?_ ?_
    · rw [and_255_eq_mod, Nat.shiftLeft_eq]; norm_num; omega
    · refine Nat.dvd_add ?_ ?_ <;> rw [Nat.shiftLeft_eq]
      · exact Dvd.dvd.mul_left (by norm_num) _
      · exact Dvd.dvd.mul_left dvd_rfl _
  have e8 : (((v >>> 24) &&& 0xFF) <<< 24 + ((v >>> 16) &&& 0xFF) <<< 16 +
      ((v >>> 8) &&& 0xFF) <<< 8) ||| (v &&& 0xFF) =
      ((v >>> 24) &&& 0xFF) <<< 24 + ((v >>> 16) &&& 0xFF) <<< 16 +
        ((v >>> 8) &&& 0xFF) <<< 8 + (v &&& 0xFF) := by
    refine lor_eq_add (k := 8) ?_ ?_
    · rw [and_255_eq_mod]; omega
    · refine Nat.dvd_add (Nat.dvd_add ?_ ?_) ?_ <;> rw [Nat.shiftLeft_eq]
      · exact Dvd.dvd.mul_left (by norm_num) _
      · exact Dvd.dvd.mul_left (by norm_num) _
      · exact Dvd.dvd.mul_left dvd_rfl _
  rw [e24, e16, e8]
  simp only [and_255_eq_mod, Nat.shiftLeft_eq, Nat.shiftRight_eq_div_pow]
  norm_num
  omega

/-- Reading back the word just stored yields `v % 2^32`. -/
theorem load32_after_store32 (m m₂ : Memory) (a v : Nat) (h : m.store32 a v = .ok m₂) :
    m₂.load32 a = .ok (v % 2 ^ 32) := by
  obtain ⟨h4, hv3, hbytes⟩ := store32_ok_inv m a v m₂ h
  obtain ⟨h0, h1, h2, h3⟩ := valid_of_aligned_last a h4 hv3
  rw [load32_valid m₂ a h4 h0 h1 h2 h3, hbytes]
  have e1 : a ≠ a + 3 := by omega
  have e2 : a ≠ a + 2 := by omega
  have e3 : a ≠ a + 1 := by omega
  have e4 : a + 1 ≠ a + 3 := by omega
  have e5 : a + 1 ≠ a + 2 := by omega
  have e6 : a + 2 ≠ a + 3 := by omega
  simp only [List.lookup, beq_self_eq_true, beq_eq_false_iff_ne.mpr e1,
    beq_eq_false_iff_ne.mpr e2, beq_eq_false_iff_ne.mpr e3, beq_eq_false_iff_ne.mpr e4,
    beq_eq_false_iff_ne.mpr e5, beq_eq_false_iff_ne.mpr e6, Option.getD_some]
  exact congrArg Except.ok (bytes_recombine_mod v)

/-- A `store32` at a different aligned word leaves `load32` unchanged. -/
theorem load32_store32_other (m m₂ : Memory) (a2 v a : Nat) (h : m.store32 a2 v = .ok m₂)
    (h4 : a % 4 = 0) (hne : a ≠ a2) : m₂.load32 a = m.load32 a := by
  obtain ⟨h24, hv3, hbytes⟩ := store32_ok_inv m a2 v m₂ h
  by_cases hall : Memory.is_valid_address a = true ∧ Memory.is_valid_address (a + 1) = true ∧
      Memory.is_valid_address (a + 2) = true ∧ Memory.is_valid_address (a + 3) = true
  · obtain ⟨g0, g1, g2, g3⟩ := hall
    rw [load32_valid m₂ a h4 g0 g1 g2 g3, load32_valid m a h4 g0 g1 g2 g3, hbytes]
    have d1 : a ≠ a2 + 3 := by omega
    have d2 : a ≠ a2 + 2 := by omega
    have d3 : a ≠ a2 + 1 := by omega
    have d4 : a ≠ a2 := hne
    have d5 : a + 1 ≠ a2 + 3 := by omega
    have d6 : a + 1 ≠ a2 + 2 := by omega
    have d7 : a + 1 ≠ a2 + 1 := by omega
    have d8 : a + 1 ≠ a2 := by omega
    have d9 : a + 2 ≠ a2 + 3 := by omega
    have d10 : a + 2 ≠ a2 + 2 := by omega
    have d11 : a + 2 ≠ a2 + 1 := by omega
    have d12 : a + 2 ≠ a2 := by omega
    have d13 : a + 3 ≠ a2 + 3 := by omega
    have d14 : a + 3 ≠ a2 + 2 := by omega
    have d15 : a + 3 ≠ a2 + 1 := by omega
    have d16 : a + 3 ≠ a2 := by omega
    simp only [List.lookup, beq_eq_false_iff_ne.mpr d1, beq_eq_false_iff_ne.mpr d2,
      beq_eq_false_iff_ne.mpr d3, beq_eq_false_iff_ne.mpr d4, beq_eq_false_iff_ne.mpr d5,
      beq_eq_false_iff_ne.mpr d6, beq_eq_false_iff_ne.mpr d7, beq_eq_false_iff_ne.mpr d8,
      beq_eq_false_iff_ne.mpr d9, beq_eq_false_iff_ne.mpr d10, beq_eq_false_iff_ne.mpr d11,
      beq_eq_false_iff_ne.mpr d12, beq_eq_false_iff_ne.mpr d13, beq_eq_false_iff_ne.mpr d14,
      beq_eq_false_iff_ne.mpr d15, beq_eq_false_iff_ne.mpr d16]
  · have hL : ∀ (mm : Memory), mm.load32 a = .error "Memory load32: address out of bounds" := by
      intro mm
      rw [Memory.load32, and_three_eq_mod, if_neg (by omega), if_pos (by simpa using hall)]
    rw [hL, hL]

/-- Inversion of a successful `laPatch`: the LUI word's low 16 bits
become `hi(target)`, the ORI word's low 16 bits become `lo(target)`, and
every other aligned word is untouched. -/
theorem laPatch_ok_inv (t : Nat) (f : LaFixup) (mem mem₂ : Memory)
    (h : laPatch t f mem = .ok mem₂) :
    f.instr_addr % 4 = 0 ∧
    (∃ lui0 ori0,
      mem.load32 f.instr_addr = .ok lui0 ∧ mem.load32 (f.instr_addr + 4) = .ok ori0 ∧
      mem₂.load32 f.instr_addr =
        .ok (((lui0 &&& 0xFFFF0000) ||| ((t >>> 16) &&& 0xFFFF)) % 2 ^ 32) ∧
      mem₂.load32 (f.instr_addr + 4) =
        .ok (((ori0 &&& 0xFFFF0000) ||| (t &&& 0xFFFF)) % 2 ^ 32)) ∧
    (∀ x, x % 4 = 0 → x ≠ f.instr_addr → x ≠ f.instr_addr + 4 →
      mem₂.load32 x = mem.load32 x) := by
  simp only [laPatch] at h
  split at h
  · cases h
  next lui0 hl1 =>
  split at h
  · cases h
  next mem1 hs1 =>
  split at h
  · cases h
  next ori1 hl2 =>
  have h4 := (store32_ok_inv _ _ _ _ hs1).1
  have h44 : (f.instr_addr + 4) % 4 = 0 := by omega
  have hori : mem.load32 (f.instr_addr + 4) = .ok ori1 := by
    rw [← load32_store32_other mem mem1 f.instr_addr _ (f.instr_addr + 4) hs1 h44 (by omega)]
    exact hl2
  refine ⟨h4, ⟨lui0, ori1, hl1, hori, ?_, ?_⟩, ?_⟩
  · rw [load32_store32_other mem1 mem₂ (f.instr_addr + 4) _ f.instr_addr h h4 (by omega)]
    exact load32_after_store32 mem mem1 f.instr_addr _ hs1
  · exact load32_after_store32 mem1 mem₂ (f.instr_addr + 4) _ h
  · intro x hx4 hx1 hx2
    rw [load32_store32_other mem1 mem₂ (f.instr_addr + 4) _ x h hx4 hx2,
        load32_store32_other mem mem1 f.instr_addr _ x hs1 hx4 hx1]

/-- Putting the last element of a list in front of it and then dropping
the (duplicated) last element is a permutation of the original list. -/
theorem getLastD_cons_dropLast_perm {α : Type} :
    ∀ (t : List α) (a : α), List.Perm ((t.getLastD a) :: t).dropLast t
  | [], _ => by simp
  | [b], a => by simp
  | b :: c :: t2, a => by
      have ih := getLastD_cons_dropLast_perm (c :: t2) b
      have hne : (c :: t2) ≠ ([] : List α) := by simp
      rw [List.dropLast_cons_of_ne_nil hne] at ih
      simp only [List.getLastD_cons] at ih ⊢
      rw [List.dropLast_cons₂, List.dropLast_cons₂]
      exact (List.Perm.swap b (t2.getLastD c) _).trans (ih.cons b)

/-- The swap-and-pop step `l[i] = l.back(); l.pop_back()` leaves the
first `i` elements unchanged. -/
theorem swapRemove_take {α : Type} :
    ∀ (l : List α) (i : Nat) (y : α), i < l.length →
      ((l.set i y).dropLast).take i = l.take i
  | [], _, _, h => absurd h (by simp)
  | _ :: _, 0, _, _ => by simp
  | a :: t, j + 1, y, h => by
      have hj : j < t.length := by simpa using h
      have ht : t.set j y ≠ [] := by
        intro e
        have h2 : (t.set j y).length = 0 := by rw [e]; rfl
        rw [List.length_set] at h2
        omega
      rw [List.set_cons_succ, List.dropLast_cons_of_ne_nil ht, List.take_succ_cons,
        List.take_succ_cons, swapRemove_take t j y hj]

/-- The suffix from `i` after a swap-and-pop at `i` is a permutation of
the suffix from `i + 1` of the original list. -/
theorem swapRemove_drop_perm {α : Type} :
    ∀ (l : List α) (i : Nat) (d : α), i < l.length →
      List.Perm (((l.set i (l.getLastD d)).dropLast).drop i) (l.drop (i + 1))
  | [], _, _, h => absurd h (by simp)
  | a :: t, 0, d, _ => by
      rw [List.getLastD_cons, List.set_cons_zero, List.drop_zero, List.drop_succ_cons,
        List.drop_zero]
      exact getLastD_cons_dropLast_perm t a
  | a :: t, j + 1, d, h => by
      have hj : j < t.length := by simpa using h
      have ht : t.set j (t.getLastD a) ≠ [] := by
        intro e
        have h2 : (t.set j (t.getLastD a)).length = 0 := by rw [e]; rfl
        rw [List.length_set] at h2
        omega
      have ih := swapRemove_drop_perm t j a hj
      rw [List.getLastD_cons, List.set_cons_succ, List.dropLast_cons_of_ne_nil ht,
        List.drop_succ_cons, List.drop_succ_cons]
      exact ih

/-- Swap-and-pop at `i` is a permutation of deleting index `i`. -/
theorem swapRemove_perm {α : Type} (l : List α) (i : Nat) (d : α) (h : i < l.length) :
    List.Perm ((l.set i (l.getLastD d)).dropLast) (l.take i ++ l.drop (i + 1)) := by
  conv_lhs => rw [← List.take_append_drop i ((l.set i (l.getLastD d)).dropLast)]
  rw [swapRemove_take l i _ h]
  exact (swapRemove_drop_perm l i d h).append_left (l.take i)


/-- Two fixups carrying the same patch key, one at index `i` and one
later, contradict `Nodup` of the projected key list. -/
theorem filterMap_dup_key {α : Type} (p : α → Option Nat) (l : List α) (i : Nat)
    (hi : i < l.length) (hnod : (l.filterMap p).Nodup) (g : α) (hg : g ∈ l.drop (i + 1))
    (k : Nat) (hpl : p l[i] = some k) (hpg : p g = some k) : False := by
  have hnod2 : ((l.take (i + 1) ++ l.drop (i + 1)).filterMap p).Nodup := by
    rw [List.take_append_drop]
    exact hnod
  rw [List.filterMap_append, List.nodup_append] at hnod2
  have hk1 : k ∈ List.filterMap p (l.take (i + 1)) := by
    refine List.mem_filterMap.mpr ⟨l[i], ?_, hpl⟩
    rw [List.take_succ, List.getElem?_eq_getElem hi]
    exact List.mem_append.mpr (.inr (by simp))
  have hk2 : k ∈ List.filterMap p (l.drop (i + 1)) := List.mem_filterMap.mpr ⟨g, hg, hpg⟩
  exact hnod2.2.2 hk1 hk2

/-- Invariant of the branch-fixup loop: on success, no fixup of the
label remains; untouched aligned words keep their contents; and (under
distinctness of the matching patch addresses) every pending matching
fixup's word holds its patch. -/
theorem resolveBranchLoop_spec (t : Nat) (lbl : String) :
    ∀ (n : Nat) (l : List BranchFixup) (i : Nat) (mem : Memory) (r : List BranchFixup)
      (mem' : Memory),
      l.length - i ≤ n →
      resolveBranchLoop t lbl l i mem = .ok (r, mem') →
      (∀ f ∈ l.take i, f.label ≠ lbl) →
      (l.filterMap (fun f => if f.label = lbl then some f.instr_addr else none)).Nodup →
      ((∀ f ∈ r, f.label ≠ lbl) ∧
       (∀ x, x % 4 = 0 → (∀ f ∈ l.drop i, f.label = lbl → f.instr_addr ≠ x) →
          mem'.load32 x = mem.load32 x) ∧
       (∀ f ∈ l.drop i, f.label = lbl →
          ∃ w, branchPatch t f = .ok w ∧ mem'.load32 f.instr_addr = .ok (w % 2 ^ 32))) := by
  intro n
  induction n with
  | zero =>
    intro l i mem r mem' hn hloop hpre _
    have hi : ¬ i < l.length := by omega
    rw [resolveBranchLoop, dif_neg hi] at hloop
    cases hloop
    refine ⟨?_, fun x _ _ => rfl, ?_⟩
    · intro f hf
      exact hpre f (by rwa [List.take_of_length_le (by omega)])
    · intro f hf
      rw [List.drop_eq_nil_of_le (by omega)] at hf
      cases hf
  | succ n ih =>
    intro l i mem r mem' hn hloop hpre hnod
    by_cases hi : i < l.length
    case neg =>
      rw [resolveBranchLoop, dif_neg hi] at hloop
      cases hloop
      refine ⟨?_, fun x _ _ => rfl, ?_⟩
      · intro f hf
        exact hpre f (by rwa [List.take_of_length_le (by omega)])
      · intro f hf
        rw [List.drop_eq_nil_of_le (by omega)] at hf
        cases hf
    case pos =>
      rw [resolveBranchLoop, dif_pos hi] at hloop
      have hdropcons : l.drop i = l.get ⟨i, hi⟩ :: l.drop (i + 1) :=
        List.drop_eq_getElem_cons hi
      by_cases hmatch : (l.get ⟨i, hi⟩).label = lbl
      case neg =>
        rw [if_pos hmatch] at hloop
        have hpre2 : ∀ f ∈ l.take (i + 1), f.label ≠ lbl := by
          intro f hf
          rw [List.take_succ, List.getElem?_eq_getElem hi] at hf
          rcases List.mem_append.mp hf with h1 | h2
          · exact hpre f h1
          · simp only [Option.toList_some, List.mem_singleton] at h2
            subst h2
            exact hmatch
        obtain ⟨ha, hb, hc⟩ := ih l (i + 1) mem r mem' (by omega) hloop hpre2 hnod
        refine ⟨ha, ?_, ?_⟩
        · intro x hx4 hxf
          refine hb x hx4 ?_
          intro f hf hfl
          refine hxf f ?_ hfl
          rw [hdropcons]
          exact List.mem_cons_of_mem _ hf
        · intro f hf hfl
          rw [hdropcons] at hf
          rcases List.mem_cons.mp hf with h1 | h2
          · subst h1
            exact absurd hfl hmatch
          · exact hc f h2 hfl
      case pos =>
        rw [if_neg (by simpa using hmatch)] at hloop
        split at hloop
        · cases hloop
        next word hbp =>
        split at hloop
        · cases hloop
        next mem1 hst =>
        have hperm := swapRemove_drop_perm l i (l.get ⟨i, hi⟩) hi
        have hpermfull := swapRemove_perm l i (l.get ⟨i, hi⟩) hi
        have hsubdrop : List.Sublist (l.drop (i + 1)) (l.drop i) := by
          rw [← List.drop_drop 1 i l]
          exact List.drop_sublist 1 (l.drop i)
        have hsub : List.Sublist (l.take i ++ l.drop (i + 1)) l := by
          conv_rhs => rw [← List.take_append_drop i l]
          exact List.Sublist.append (List.Sublist.refl _) hsubdrop
        have hpre2 : ∀ f ∈ ((l.set i (l.getLastD (l.get ⟨i, hi⟩))).dropLast).take i,
            f.label ≠ lbl := by
          rw [swapRemove_take l i _ hi]
          exact hpre
        have hnod2 : (((l.set i (l.getLastD (l.get ⟨i, hi⟩))).dropLast).filterMap
            (fun f => if f.label = lbl then some f.instr_addr else none)).Nodup := by
          refine ((hpermfull.filterMap _).nodup_iff).mpr ?_
          exact hnod.sublist (hsub.filterMap _)
        obtain ⟨ha, hb, hc⟩ := ih _ i mem1 r mem'
          (by simp only [List.length_dropLast, List.length_set]; omega) hloop hpre2 hnod2
        have hal : (l.get ⟨i, hi⟩).instr_addr % 4 = 0 := (store32_ok_inv _ _ _ _ hst).1
        refine ⟨ha, ?_, ?_⟩
        · intro x hx4 hxf
          have hx0 : (l.get ⟨i, hi⟩).instr_addr ≠ x := by
            refine hxf _ ?_ hmatch
            rw [hdropcons]
            exact List.mem_cons_self _ _
          have hb' := hb x hx4 ?_
          · rw [hb']
            exact load32_store32_other mem mem1 _ word x hst hx4 (fun e => hx0 e.symm)
          · intro g hg hgl
            refine hxf g ?_ hgl
            rw [hdropcons]
            exact List.mem_cons_of_mem _ (hperm.mem_iff.mp hg)
        · intro g hg hgl
          rw [hdropcons] at hg
          rcases List.mem_cons.mp hg with h1 | h2
          · subst h1
            refine ⟨word, hbp, ?_⟩
            have hb' := hb (l.get ⟨i, hi⟩).instr_addr hal ?_
            · rw [hb']
              exact load32_after_store32 mem mem1 _ word hst
            · intro g' hg' hgl' heq
              refine filterMap_dup_key
                (fun f => if f.label = lbl then some f.instr_addr else none) l i hi hnod g'
                (hperm.mem_iff.mp hg') (l.get ⟨i, hi⟩).instr_addr ?_ ?_
              · have hm2 : l[i].label = lbl := hmatch
                simp only [hm2, if_true, reduceIte]
                exact rfl
              · simp [hgl', heq]
          · exact hc g (hperm.mem_iff.mpr h2) hgl

/-- Invariant of the jump-fixup loop: on success, no fixup of the
label remains; untouched aligned words keep their contents; and (under
distinctness of the matching patch addresses) every pending matching
fixup's word holds its patch. -/
theorem resolveJumpLoop_spec (t : Nat) (lbl : String) :
    ∀ (n : Nat) (l : List JumpFixup) (i : Nat) (mem : Memory) (r : List JumpFixup)
      (mem' : Memory),
      l.length - i ≤ n →
      resolveJumpLoop t lbl l i mem = .ok (r, mem') →
      (∀ f ∈ l.take i, f.label ≠ lbl) →
      (l.filterMap (fun f => if f.label = lbl then some f.instr_addr else none)).Nodup →
      ((∀ f ∈ r, f.label ≠ lbl) ∧
       (∀ x, x % 4 = 0 → (∀ f ∈ l.drop i, f.label = lbl → f.instr_addr ≠ x) →
          mem'.load32 x = mem.load32 x) ∧
       (∀ f ∈ l.drop i, f.label = lbl →
          ∃ w, jumpPatch t f = .ok w ∧ mem'.load32 f.instr_addr = .ok (w % 2 ^ 32))) := by
  intro n
  induction n with
  | zero =>
    intro l i mem r mem' hn hloop hpre _
    have hi : ¬ i < l.length := by omega
    rw [resolveJumpLoop, dif_neg hi] at hloop
    cases hloop
    refine ⟨?_, fun x _ _ => rfl, ?_⟩
    · intro f hf
      exact hpre f (by rwa [List.take_of_length_le (by omega)])
    · intro f hf
      rw [List.drop_eq_nil_of_le (by omega)] at hf
      cases hf
  | succ n ih =>
    intro l i mem r mem' hn hloop hpre hnod
    by_cases hi : i < l.length
    case neg =>
      rw [resolveJumpLoop, dif_neg hi] at hloop
      cases hloop
      refine ⟨?_, fun x _ _ => rfl, ?_⟩
      · intro f hf
        exact hpre f (by rwa [List.take_of_length_le (by omega)])
      · intro f hf
        rw [List.drop_eq_nil_of_le (by omega)] at hf
        cases hf
    case pos =>
      rw [resolveJumpLoop, dif_pos hi] at hloop
      have hdropcons : l.drop i = l.get ⟨i, hi⟩ :: l.drop (i + 1) :=
        List.drop_eq_getElem_cons hi
      by_cases hmatch : (l.get ⟨i, hi⟩).label = lbl
      case neg =>
        rw [if_pos hmatch] at hloop
        have hpre2 : ∀ f ∈ l.take (i + 1), f.label ≠ lbl := by
          intro f hf
          rw [List.take_succ, List.getElem?_eq_getElem hi] at hf
          rcases List.mem_append.mp hf with h1 | h2
          · exact hpre f h1
          · simp only [Option.toList_some, List.mem_singleton] at h2
            subst h2
            exact hmatch
        obtain ⟨ha, hb, hc⟩ := ih l (i + 1) mem r mem' (by omega) hloop hpre2 hnod
        refine ⟨ha, ?_, ?_⟩
        · intro x hx4 hxf
          refine hb x hx4 ?_
          intro f hf hfl
          refine hxf f ?_ hfl
          rw [hdropcons]
          exact List.mem_cons_of_mem _ hf
        · intro f hf hfl
          rw [hdropcons] at hf
          rcases List.mem_cons.mp hf with h1 | h2
          · subst h1
            exact absurd hfl hmatch
          · exact hc f h2 hfl
      case pos =>
        rw [if_neg (by simpa using hmatch)] at hloop
        split at hloop
        · cases hloop
        next word hbp =>
        split at hloop
        · cases hloop
        next mem1 hst =>
        have hperm := swapRemove_drop_perm l i (l.get ⟨i, hi⟩) hi
        have hpermfull := swapRemove_perm l i (l.get ⟨i, hi⟩) hi
        have hsubdrop : List.Sublist (l.drop (i + 1)) (l.drop i) := by
          rw [← List.drop_drop 1 i l]
          exact List.drop_sublist 1 (l.drop i)
        have hsub : List.Sublist (l.take i ++ l.drop (i + 1)) l := by
          conv_rhs => rw [← List.take_append_drop i l]
          exact List.Sublist.append (List.Sublist.refl _) hsubdrop
        have hpre2 : ∀ f ∈ ((l.set i (l.getLastD (l.get ⟨i, hi⟩))).dropLast).take i,
            f.label ≠ lbl := by
          rw [swapRemove_take l i _ hi]
          exact hpre
        have hnod2 : (((l.set i (l.getLastD (l.get ⟨i, hi⟩))).dropLast).filterMap
            (fun f => if f.label = lbl then some f.instr_addr else none)).Nodup := by
          refine ((hpermfull.filterMap _).nodup_iff).mpr ?_
          exact hnod.sublist (hsub.filterMap _)
        obtain ⟨ha, hb, hc⟩ := ih _ i mem1 r mem'
          (by simp only [List.length_dropLast, List.length_set]; omega) hloop hpre2 hnod2
        have hal : (l.get ⟨i, hi⟩).instr_addr % 4 = 0 := (store32_ok_inv _ _ _ _ hst).1
        refine ⟨ha, ?_, ?_⟩
        · intro x hx4 hxf
          have hx0 : (l.get ⟨i, hi⟩).instr_addr ≠ x := by
            refine hxf _ ?_ hmatch
            rw [hdropcons]
            exact List.mem_cons_self _ _
          have hb' := hb x hx4 ?_
          · rw [hb']
            exact load32_store32_other mem mem1 _ word x hst hx4 (fun e => hx0 e.symm)
          · intro g hg hgl
            refine hxf g ?_ hgl
            rw [hdropcons]
            exact List.mem_cons_of_mem _ (hperm.mem_iff.mp hg)
        · intro g hg hgl
          rw [hdropcons] at hg
          rcases List.mem_cons.mp hg with h1 | h2
          · subst h1
            refine ⟨word, hbp, ?_⟩
            have hb' := hb (l.get ⟨i, hi⟩).instr_addr hal ?_
            · rw [hb']
              exact load32_after_store32 mem mem1 _ word hst
            · intro g' hg' hgl' heq
              refine filterMap_dup_key
                (fun f => if f.label = lbl then some f.instr_addr else none) l i hi hnod g'
                (hperm.mem_iff.mp hg') (l.get ⟨i, hi⟩).instr_addr ?_ ?_
              · have hm2 : l[i].label = lbl := hmatch
                simp only [hm2, if_true, reduceIte]
                exact rfl
              · simp [hgl', heq]
          · exact hc g (hperm.mem_iff.mpr h2) hgl


/-- Invariant of the la-fixup loop: as for branches, but each fixup owns
the two words at `instr_addr` and `instr_addr + 4`, whose low 16 bits are
overwritten with the target's halves. -/
theorem resolveLaLoop_spec (t : Nat) (lbl : String) :
    ∀ (n : Nat) (l : List LaFixup) (i : Nat) (mem : Memory) (r : List LaFixup)
      (mem' : Memory),
      l.length - i ≤ n →
      resolveLaLoop t lbl l i mem = .ok (r, mem') →
      (∀ f ∈ l.take i, f.label ≠ lbl) →
      ((l.filterMap (fun f : LaFixup => if f.label = lbl then some f.instr_addr else none)) ++
       (l.filterMap (fun f : LaFixup =>
          if f.label = lbl then some (f.instr_addr + 4) else none))).Nodup →
      ((∀ f ∈ r, f.label ≠ lbl) ∧
       (∀ x, x % 4 = 0 →
          (∀ f ∈ l.drop i, f.label = lbl → f.instr_addr ≠ x ∧ f.instr_addr + 4 ≠ x) →
          mem'.load32 x = mem.load32 x) ∧
       (∀ f ∈ l.drop i, f.label = lbl →
          ∃ lui0 ori0, mem.load32 f.instr_addr = .ok lui0 ∧
            mem.load32 (f.instr_addr + 4) = .ok ori0 ∧
            mem'.load32 f.instr_addr =
              .ok (((lui0 &&& 0xFFFF0000) ||| ((t >>> 16) &&& 0xFFFF)) % 2 ^ 32) ∧
            mem'.load32 (f.instr_addr + 4) =
              .ok (((ori0 &&& 0xFFFF0000) ||| (t &&& 0xFFFF)) % 2 ^ 32))) := by
  intro n
  induction n with
  | zero =>
    intro l i mem r mem' hn hloop hpre _
    have hi : ¬ i < l.length := by omega
    rw [resolveLaLoop, dif_neg hi] at hloop
    cases hloop
    refine ⟨?_, fun x _ _ => rfl, ?_⟩
    · intro f hf
      exact hpre f (by rwa [List.take_of_length_le (by omega)])
    · intro f hf
      rw [List.drop_eq_nil_of_le (by omega)] at hf
      cases hf
  | succ n ih =>
    intro l i mem r mem' hn hloop hpre hnod
    by_cases hi : i < l.length
    case neg =>
      rw [resolveLaLoop, dif_neg hi] at hloop
      cases hloop
      refine ⟨?_, fun x _ _ => rfl, ?_⟩
      · intro f hf
        exact hpre f (by rwa [List.take_of_length_le (by omega)])
      · intro f hf
        rw [List.drop_eq_nil_of_le (by omega)] at hf
        cases hf
    case pos =>
      rw [resolveLaLoop, dif_pos hi] at hloop
      have hdropcons : l.drop i = l.get ⟨i, hi⟩ :: l.drop (i + 1) :=
        List.drop_eq_getElem_cons hi
      by_cases hmatch : (l.get ⟨i, hi⟩).label = lbl
      case neg =>
        rw [if_pos hmatch] at hloop
        have hpre2 : ∀ f ∈ l.take (i + 1), f.label ≠ lbl := by
          intro f hf
          rw [List.take_succ, List.getElem?_eq_getElem hi] at hf
          rcases List.mem_append.mp hf with h1 | h2
          · exact hpre f h1
          · simp only [Option.toList_some, List.mem_singleton] at h2
            subst h2
            exact hmatch
        obtain ⟨ha, hb, hc⟩ := ih l (i + 1) mem r mem' (by omega) hloop hpre2 hnod
        refine ⟨ha, ?_, ?_⟩
        · intro x hx4 hxf
          refine hb x hx4 ?_
          intro f hf hfl
          refine hxf f ?_ hfl
          rw [hdropcons]
          exact List.mem_cons_of_mem _ hf
        · intro f hf hfl
          rw [hdropcons] at hf
          rcases List.mem_cons.mp hf with h1 | h2
          · subst h1
            exact absurd hfl hmatch
          · exact hc f h2 hfl
      case pos =>
        rw [if_neg (by simpa using hmatch)] at hloop
        split at hloop
        · cases hloop
        next mem1 hpatch =>
        obtain ⟨hal, ⟨lui0, ori1, hlua, hora, hm1a, hm1b⟩, hloc⟩ :=
          laPatch_ok_inv t (l.get ⟨i, hi⟩) mem mem1 hpatch
        have hperm := swapRemove_drop_perm l i (l.get ⟨i, hi⟩) hi
        have hpermfull := swapRemove_perm l i (l.get ⟨i, hi⟩) hi
        have hsubdrop : List.Sublist (l.drop (i + 1)) (l.drop i) := by
          rw [← List.drop_drop 1 i l]
          exact List.drop_sublist 1 (l.drop i)
        have hsub : List.Sublist (l.take i ++ l.drop (i + 1)) l := by
          conv_rhs => rw [← List.take_append_drop i l]
          exact List.Sublist.append (List.Sublist.refl _) hsubdrop
        have hpre2 : ∀ f ∈ ((l.set i (l.getLastD (l.get ⟨i, hi⟩))).dropLast).take i,
            f.label ≠ lbl := by
          rw [swapRemove_take l i _ hi]
          exact hpre
        have hnod2 : ((((l.set i (l.getLastD (l.get ⟨i, hi⟩))).dropLast).filterMap
              (fun f : LaFixup => if f.label = lbl then some f.instr_addr else none)) ++
            (((l.set i (l.getLastD (l.get ⟨i, hi⟩))).dropLast).filterMap
              (fun f : LaFixup =>
                if f.label = lbl then some (f.instr_addr + 4) else none))).Nodup := by
          refine (((hpermfull.filterMap _).append (hpermfull.filterMap _)).nodup_iff).mpr ?_
          exact hnod.sublist (List.Sublist.append (hsub.filterMap _) (hsub.filterMap _))
        have hnodparts := List.nodup_append.mp hnod
        have hnodA := hnodparts.1
        have hnodB := hnodparts.2.1
        have hdisj := hnodparts.2.2
        have hm2 : l[i].label = lbl := hmatch
        have hmem_li : l[i] ∈ l := List.getElem_mem hi
        have hpa : (fun f : LaFixup => if f.label = lbl then some f.instr_addr else none) l[i] =
            some (l.get ⟨i, hi⟩).instr_addr := by
          simp only [hm2, reduceIte]
          exact rfl
        have hpb : (fun f : LaFixup =>
              if f.label = lbl then some (f.instr_addr + 4) else none) l[i] =
            some ((l.get ⟨i, hi⟩).instr_addr + 4) := by
          simp only [hm2, reduceIte]
          exact rfl
        have hAi : (l.get ⟨i, hi⟩).instr_addr ∈
            l.filterMap (fun f => if f.label = lbl then some f.instr_addr else none) :=
          List.mem_filterMap.mpr ⟨l[i], hmem_li, hpa⟩
        have hBi : (l.get ⟨i, hi⟩).instr_addr + 4 ∈
            l.filterMap (fun f => if f.label = lbl then some (f.instr_addr + 4) else none) :=
          List.mem_filterMap.mpr ⟨l[i], hmem_li, hpb⟩
        obtain ⟨ha, hb, hc⟩ := ih _ i mem1 r mem'
          (by simp only [List.length_dropLast, List.length_set]; omega) hloop hpre2 hnod2
        have hsep : ∀ g ∈ l.drop (i + 1), g.label = lbl →
            g.instr_addr ≠ (l.get ⟨i, hi⟩).instr_addr ∧
            g.instr_addr ≠ (l.get ⟨i, hi⟩).instr_addr + 4 ∧
            g.instr_addr + 4 ≠ (l.get ⟨i, hi⟩).instr_addr ∧
            g.instr_addr + 4 ≠ (l.get ⟨i, hi⟩).instr_addr + 4 := by
          intro g hg hgl
          have hgmem : g ∈ l := List.mem_of_mem_drop hg
          refine ⟨?_, ?_, ?_, ?_⟩
          · intro heq
            refine filterMap_dup_key
              (fun f => if f.label = lbl then some f.instr_addr else none) l i hi hnodA g hg
              (l.get ⟨i, hi⟩).instr_addr hpa ?_
            simp [hgl, heq]
          · intro heq
            refine hdisj ?_ hBi
            refine List.mem_filterMap.mpr ⟨g, hgmem, ?_⟩
            simp [hgl, heq]
          · intro heq
            refine hdisj hAi ?_
            refine List.mem_filterMap.mpr ⟨g, hgmem, ?_⟩
            simp [hgl, heq]
          · intro heq
            refine filterMap_dup_key
              (fun f => if f.label = lbl then some (f.instr_addr + 4) else none) l i hi hnodB
              g hg ((l.get ⟨i, hi⟩).instr_addr + 4) hpb ?_
            simp [hgl, heq]
        refine ⟨ha, ?_, ?_⟩
        · intro x hx4 hxf
          obtain ⟨hx1, hx2⟩ := hxf _ (by rw [hdropcons]; exact List.mem_cons_self _ _) hmatch
          have hb' := hb x hx4 ?_
          · rw [hb']
            exact hloc x hx4 (fun e => hx1 e.symm) (fun e => hx2 e.symm)
          · intro g hg hgl
            refine hxf g ?_ hgl
            rw [hdropcons]
            exact List.mem_cons_of_mem _ (hperm.mem_iff.mp hg)
        · intro g hg hgl
          rw [hdropcons] at hg
          rcases List.mem_cons.mp hg with h1 | h2
          · subst h1
            refine ⟨lui0, ori1, hlua, hora, ?_, ?_⟩
            · have hb' := hb (l.get ⟨i, hi⟩).instr_addr hal ?_
              · rw [hb']
                exact hm1a
              · intro g' hg' hgl'
                obtain ⟨hs1, _, hs3, _⟩ := hsep g' (hperm.mem_iff.mp hg') hgl'
                exact ⟨hs1, hs3⟩
            · have hb' := hb ((l.get ⟨i, hi⟩).instr_addr + 4) (by omega) ?_
              · rw [hb']
                exact hm1b
              · intro g' hg' hgl'
                obtain ⟨_, hs2, _, hs4⟩ := hsep g' (hperm.mem_iff.mp hg') hgl'
                exact ⟨hs2, hs4⟩
          · obtain ⟨lui0', ori0', h1', h2', h3', h4'⟩ := hc g (hperm.mem_iff.mpr h2) hgl
            obtain ⟨hs1, hs2, hs3, hs4⟩ := hsep g h2 hgl
            have hga4 : g.instr_addr % 4 = 0 := load32_ok_align mem1 _ _ h1'
            refine ⟨lui0', ori0', ?_, ?_, h3', h4'⟩
            · rw [← hloc g.instr_addr hga4 hs1 hs2]
              exact h1'
            · rw [← hloc (g.instr_addr + 4) (by omega) hs3 hs4]
              exact h2'


/-- The branch-fixup loop never keeps a matching fixup (no distinctness
needed). -/
theorem resolveBranchLoop_removes (t : Nat) (lbl : String) :
    ∀ (n : Nat) (l : List BranchFixup) (i : Nat) (mem : Memory) (r : List BranchFixup)
      (mem' : Memory),
      l.length - i ≤ n →
      resolveBranchLoop t lbl l i mem = .ok (r, mem') →
      (∀ f ∈ l.take i, f.label ≠ lbl) →
      ∀ f ∈ r, f.label ≠ lbl := by
  intro n
  induction n with
  | zero =>
    intro l i mem r mem' hn hloop hpre
    have hi : ¬ i < l.length := by omega
    rw [resolveBranchLoop, dif_neg hi] at hloop
    cases hloop
    intro f hf
    exact hpre f (by rwa [List.take_of_length_le (by omega)])
  | succ n ih =>
    intro l i mem r mem' hn hloop hpre
    by_cases hi : i < l.length
    case neg =>
      rw [resolveBranchLoop, dif_neg hi] at hloop
      cases hloop
      intro f hf
      exact hpre f (by rwa [List.take_of_length_le (by omega)])
    case pos =>
      rw [resolveBranchLoop, dif_pos hi] at hloop
      by_cases hmatch : (l.get ⟨i, hi⟩).label = lbl
      case neg =>
        rw [if_pos hmatch] at hloop
        refine ih l (i + 1) mem r mem' (by omega) hloop ?_
        intro f hf
        rw [List.take_succ, List.getElem?_eq_getElem hi] at hf
        rcases List.mem_append.mp hf with h1 | h2
        · exact hpre f h1
        · simp only [Option.toList_some, List.mem_singleton] at h2
          subst h2
          exact hmatch
      case pos =>
        rw [if_neg (by simpa using hmatch)] at hloop
        split at hloop
        · cases hloop
        next word hbp =>
        split at hloop
        · cases hloop
        next mem1 hst =>
        refine ih _ i mem1 r mem'
          (by simp only [List.length_dropLast, List.length_set]; omega) hloop ?_
        rw [swapRemove_take l i _ hi]
        exact hpre

/-- The jump-fixup loop never keeps a matching fixup. -/
theorem resolveJumpLoop_removes (t : Nat) (lbl : String) :
    ∀ (n : Nat) (l : List JumpFixup) (i : Nat) (mem : Memory) (r : List JumpFixup)
      (mem' : Memory),
      l.length - i ≤ n →
      resolveJumpLoop t lbl l i mem = .ok (r, mem') →
      (∀ f ∈ l.take i, f.label ≠ lbl) →
      ∀ f ∈ r, f.label ≠ lbl := by
  intro n
  induction n with
  | zero =>
    intro l i mem r mem' hn hloop hpre
    have hi : ¬ i < l.length := by omega
    rw [resolveJumpLoop, dif_neg hi] at hloop
    cases hloop
    intro f hf
    exact hpre f (by rwa [List.take_of_length_le (by omega)])
  | succ n ih =>
    intro l i mem r mem' hn hloop hpre
    by_cases hi : i < l.length
    case neg =>
      rw [resolveJumpLoop, dif_neg hi] at hloop
      cases hloop
      intro f hf
      exact hpre f (by rwa [List.take_of_length_le (by omega)])
    case pos =>
      rw [resolveJumpLoop, dif_pos hi] at hloop
      by_cases hmatch : (l.get ⟨i, hi⟩).label = lbl
      case neg =>
        rw [if_pos hmatch] at hloop
        refine ih l (i + 1) mem r mem' (by omega) hloop ?_
        intro f hf
        rw [List.take_succ, List.getElem?_eq_getElem hi] at hf
        rcases List.mem_append.mp hf with h1 | h2
        · exact hpre f h1
        · simp only [Option.toList_some, List.mem_singleton] at h2
          subst h2
          exact hmatch
      case pos =>
        rw [if_neg (by simpa using hmatch)] at hloop
        split at hloop
        · cases hloop
        next word hbp =>
        split at hloop
        · cases hloop
        next mem1 hst =>
        refine ih _ i mem1 r mem'
          (by simp only [List.length_dropLast, List.length_set]; omega) hloop ?_
        rw [swapRemove_take l i _ hi]
        exact hpre

/-- The la-fixup loop never keeps a matching fixup. -/
theorem resolveLaLoop_removes (t : Nat) (lbl : String) :
    ∀ (n : Nat) (l : List LaFixup) (i : Nat) (mem : Memory) (r : List LaFixup)
      (mem' : Memory),
      l.length - i ≤ n →
      resolveLaLoop t lbl l i mem = .ok (r, mem') →
      (∀ f ∈ l.take i, f.label ≠ lbl) →
      ∀ f ∈ r, f.label ≠ lbl := by
  intro n
  induction n with
  | zero =>
    intro l i mem r mem' hn hloop hpre
    have hi : ¬ i < l.length := by omega
    rw [resolveLaLoop, dif_neg hi] at hloop
    cases hloop
    intro f hf
    exact hpre f (by rwa [List.take_of_length_le (by omega)])
  | succ n ih =>
    intro l i mem r mem' hn hloop hpre
    by_cases hi : i < l.length
    case neg =>
      rw [resolveLaLoop, dif_neg hi] at hloop
      cases hloop
      intro f hf
      exact hpre f (by rwa [List.take_of_length_le (by omega)])
    case pos =>
      rw [resolveLaLoop, dif_pos hi] at hloop
      by_cases hmatch : (l.get ⟨i, hi⟩).label = lbl
      case neg =>
        rw [if_pos hmatch] at hloop
        refine ih l (i + 1) mem r mem' (by omega) hloop ?_
        intro f hf
        rw [List.take_succ, List.getElem?_eq_getElem hi] at hf
        rcases List.mem_append.mp hf with h1 | h2
        · exact hpre f h1
        · simp only [Option.toList_some, List.mem_singleton] at h2
          subst h2
          exact hmatch
      case pos =>
        rw [if_neg (by simpa using hmatch)] at hloop
        split at hloop
        · cases hloop
        next mem1 hpatch =>
        refine ih _ i mem1 r mem'
          (by simp only [List.length_dropLast, List.length_set]; omega) hloop ?_
        rw [swapRemove_take l i _ hi]
        exact hpre


/-- C6 (amended): `define_label(name, A)` fails with the redefinition
diagnostic whenever `name` is already bound (the converse of the claim's
"exactly when" fails: resolving a pending fixup can also throw, see the
counterexample). On success the new binding is added, no fixup of the
three kinds whose label equals `name` remains, and — when the matching
fixups' patch words are pairwise distinct — each removed fixup's
placeholder word has been patched from `A`: branches get their relative
offset word, jumps their absolute-target word, and `la` pairs get the
two halves of `A` overlaid into the low 16 bits of their LUI and ORI
words. -/
theorem C6_define_label_resolves_fixups :
    ∀ (m : Machine) (name : String) (addr : Nat),
      ((m.labels.lookup name).isSome →
        m.define_label name addr = .error ("Label redefined: " ++ name)) ∧
      (∀ m', m.define_label name addr = .ok m' →
        m'.labels = (name, addr) :: m.labels ∧
        (∀ f ∈ m'.branch_fixups, f.label ≠ name) ∧
        (∀ f ∈ m'.jump_fixups, f.label ≠ name) ∧
        (∀ f ∈ m'.la_fixups, f.label ≠ name) ∧
        (((m.branch_fixups.filterMap
              (fun f : BranchFixup => if f.label = name then some f.instr_addr else none)) ++
          ((m.jump_fixups.filterMap
              (fun f : JumpFixup => if f.label = name then some f.instr_addr else none)) ++
           ((m.la_fixups.filterMap
              (fun f : LaFixup => if f.label = name then some f.instr_addr else none)) ++
            (m.la_fixups.filterMap
              (fun f : LaFixup =>
                if f.label = name then some (f.instr_addr + 4) else none))))).Nodup →
          (∀ f ∈ m.branch_fixups, f.label = name →
            ∃ w, branchPatch addr f = .ok w ∧
              m'.mem.load32 f.instr_addr = .ok (w % 2 ^ 32)) ∧
          (∀ f ∈ m.jump_fixups, f.label = name →
            ∃ w, jumpPatch addr f = .ok w ∧
              m'.mem.load32 f.instr_addr = .ok (w % 2 ^ 32)) ∧
          (∀ f ∈ m.la_fixups, f.label = name →
            ∃ lui0 ori0, m.mem.load32 f.instr_addr = .ok lui0 ∧
              m.mem.load32 (f.instr_addr + 4) = .ok ori0 ∧
              m'.mem.load32 f.instr_addr =
                .ok (((lui0 &&& 0xFFFF0000) ||| ((addr >>> 16) &&& 0xFFFF)) % 2 ^ 32) ∧
              m'.mem.load32 (f.instr_addr + 4) =
                .ok (((ori0 &&& 0xFFFF0000) ||| (addr &&& 0xFFFF)) % 2 ^ 32)))) := by
  intro m name addr
  constructor
  · intro hsome
    rcases ho : m.labels.lookup name with _ | a
    · rw [ho] at hsome
      cases hsome
    · simp only [Machine.define_label, ho]
  · intro m' hdl
    rcases ho : m.labels.lookup name with _ | a
    case some =>
      simp only [Machine.define_label, ho] at hdl
      cases hdl
    case none =>
    have hlk : (((name, addr) :: m.labels).lookup name) = some addr := by
      simp [List.lookup]
    simp only [Machine.define_label, ho, Machine.resolve_fixups_for, hlk] at hdl
    split at hdl
    · cases hdl
    next bf mem1 hbl =>
    split at hdl
    · cases hdl
    next jf mem2 hjl =>
    split at hdl
    · cases hdl
    next lf mem3 hll =>
    cases hdl
    refine ⟨rfl, ?_, ?_, ?_, ?_⟩
    · exact resolveBranchLoop_removes addr name m.branch_fixups.length m.branch_fixups 0 m.mem
        bf mem1 (by omega) hbl (by simp)
    · exact resolveJumpLoop_removes addr name m.jump_fixups.length m.jump_fixups 0 mem1
        jf mem2 (by omega) hjl (by simp)
    · exact resolveLaLoop_removes addr name m.la_fixups.length m.la_fixups 0 mem2
        lf mem3 (by omega) hll (by simp)
    · intro hnod
      rw [List.nodup_append] at hnod
      obtain ⟨hnodA, hrest, hdA⟩ := hnod
      rw [List.nodup_append] at hrest
      obtain ⟨hnodB, hnodCD, hdB⟩ := hrest
      have hAB : ∀ k, k ∈ m.branch_fixups.filterMap
            (fun f : BranchFixup => if f.label = name then some f.instr_addr else none) →
          k ∈ m.jump_fixups.filterMap
            (fun f : JumpFixup => if f.label = name then some f.instr_addr else none) →
          False :=
        fun _ ha hb => hdA ha (List.mem_append.mpr (.inl hb))
      have hAC : ∀ k, k ∈ m.branch_fixups.filterMap
            (fun f : BranchFixup => if f.label = name then some f.instr_addr else none) →
          k ∈ m.la_fixups.filterMap
            (fun f : LaFixup => if f.label = name then some f.instr_addr else none) →
          False :=
        fun _ ha hc =>
          hdA ha (List.mem_append.mpr (.inr (List.mem_append.mpr (.inl hc))))
      have hAD : ∀ k, k ∈ m.branch_fixups.filterMap
            (fun f : BranchFixup => if f.label = name then some f.instr_addr else none) →
          k ∈ m.la_fixups.filterMap
            (fun f : LaFixup => if f.label = name then some (f.instr_addr + 4) else none) →
          False :=
        fun _ ha hd =>
          hdA ha (List.mem_append.mpr (.inr (List.mem_append.mpr (.inr hd))))
      have hBC : ∀ k, k ∈ m.jump_fixups.filterMap
            (fun f : JumpFixup => if f.label = name then some f.instr_addr else none) →
          k ∈ m.la_fixups.filterMap
            (fun f : LaFixup => if f.label = name then some f.instr_addr else none) →
          False :=
        fun _ hb hc => hdB hb (List.mem_append.mpr (.inl hc))
      have hBD : ∀ k, k ∈ m.jump_fixups.filterMap
            (fun f : JumpFixup => if f.label = name then some f.instr_addr else none) →
          k ∈ m.la_fixups.filterMap
            (fun f : LaFixup => if f.label = name then some (f.instr_addr + 4) else none) →
          False :=
        fun _ hb hd => hdB hb (List.mem_append.mpr (.inr hd))
      obtain ⟨_, hbB, hbC⟩ := resolveBranchLoop_spec addr name m.branch_fixups.length
        m.branch_fixups 0 m.mem bf mem1 (by omega) hbl (by simp) hnodA
      obtain ⟨_, hjB, hjC⟩ := resolveJumpLoop_spec addr name m.jump_fixups.length
        m.jump_fixups 0 mem1 jf mem2 (by omega) hjl (by simp) hnodB
      obtain ⟨_, hlB, hlC⟩ := resolveLaLoop_spec addr name m.la_fixups.length
        m.la_fixups 0 mem2 lf mem3 (by omega) hll (by simp) hnodCD
      refine ⟨?_, ?_, ?_⟩
      · intro f hf hfl
        obtain ⟨w, hw, hmem1⟩ := hbC f (by rwa [List.drop_zero]) hfl
        have hfA : f.instr_addr ∈ m.branch_fixups.filterMap
            (fun f : BranchFixup => if f.label = name then some f.instr_addr else none) :=
          List.mem_filterMap.mpr ⟨f, hf, by simp [hfl]⟩
        have hf4 : f.instr_addr % 4 = 0 := load32_ok_align mem1 _ _ hmem1
        have hmem2 : mem2.load32 f.instr_addr = mem1.load32 f.instr_addr := by
          refine hjB f.instr_addr hf4 ?_
          intro g hg hgl heq
          refine hAB f.instr_addr hfA ?_
          refine List.mem_filterMap.mpr ⟨g, List.mem_of_mem_drop hg, ?_⟩
          simp [hgl, heq]
        have hmem3 : mem3.load32 f.instr_addr = mem2.load32 f.instr_addr := by
          refine hlB f.instr_addr hf4 ?_
          intro g hg hgl
          constructor
          · intro heq
            refine hAC f.instr_addr hfA ?_
            refine List.mem_filterMap.mpr ⟨g, List.mem_of_mem_drop hg, ?_⟩
            simp [hgl, heq]
          · intro heq
            refine hAD f.instr_addr hfA ?_
            refine List.mem_filterMap.mpr ⟨g, List.mem_of_mem_drop hg, ?_⟩
            simp [hgl, heq]
        refine ⟨w, hw, ?_⟩
        show mem3.load32 f.instr_addr = .ok (w % 2 ^ 32)
        rw [hmem3, hmem2]
        exact hmem1
      · intro f hf hfl
        obtain ⟨w, hw, hmem2⟩ := hjC f (by rwa [List.drop_zero]) hfl
        have hfB : f.instr_addr ∈ m.jump_fixups.filterMap
            (fun f : JumpFixup => if f.label = name then some f.instr_addr else none) :=
          List.mem_filterMap.mpr ⟨f, hf, by simp [hfl]⟩
        have hf4 : f.instr_addr % 4 = 0 := load32_ok_align mem2 _ _ hmem2
        have hmem3 : mem3.load32 f.instr_addr = mem2.load32 f.instr_addr := by
          refine hlB f.instr_addr hf4 ?_
          intro g hg hgl
          constructor
          · intro heq
            refine hBC f.instr_addr hfB ?_
            refine List.mem_filterMap.mpr ⟨g, List.mem_of_mem_drop hg, ?_⟩
            simp [hgl, heq]
          · intro heq
            refine hBD f.instr_addr hfB ?_
            refine List.mem_filterMap.mpr ⟨g, List.mem_of_mem_drop hg, ?_⟩
            simp [hgl, heq]
        refine ⟨w, hw, ?_⟩
        show mem3.load32 f.instr_addr = .ok (w % 2 ^ 32)
        rw [hmem3]
        exact hmem2
      · intro f hf hfl
        obtain ⟨lui0, ori0, h1, h2, h3, h4⟩ := hlC f (by rwa [List.drop_zero]) hfl
        have hfC : f.instr_addr ∈ m.la_fixups.filterMap
            (fun f : LaFixup => if f.label = name then some f.instr_addr else none) :=
          List.mem_filterMap.mpr ⟨f, hf, by simp [hfl]⟩
        have hfD : f.instr_addr + 4 ∈ m.la_fixups.filterMap
            (fun f : LaFixup => if f.label = name then some (f.instr_addr + 4) else none) :=
          List.mem_filterMap.mpr ⟨f, hf, by simp [hfl]⟩
        have hf4 : f.instr_addr % 4 = 0 := load32_ok_align mem2 _ _ h1
        have e1 : mem1.load32 f.instr_addr = m.mem.load32 f.instr_addr := by
          refine hbB f.instr_addr hf4 ?_
          intro g hg hgl heq
          refine hAC f.instr_addr ?_ hfC
          refine List.mem_filterMap.mpr ⟨g, List.mem_of_mem_drop hg, ?_⟩
          simp [hgl, heq]
        have e2 : mem2.load32 f.instr_addr = mem1.load32 f.instr_addr := by
          refine hjB f.instr_addr hf4 ?_
          intro g hg hgl heq
          refine hBC f.instr_addr ?_ hfC
          refine List.mem_filterMap.mpr ⟨g, List.mem_of_mem_drop hg, ?_⟩
          simp [hgl, heq]
        have e3 : mem1.load32 (f.instr_addr + 4) = m.mem.load32 (f.instr_addr + 4) := by
          refine hbB (f.instr_addr + 4) (by omega) ?_
          intro g hg hgl heq
          refine hAD (f.instr_addr + 4) ?_ hfD
          refine List.mem_filterMap.mpr ⟨g, List.mem_of_mem_drop hg, ?_⟩
          simp [hgl, heq]
        have e4 : mem2.load32 (f.instr_addr + 4) = mem1.load32 (f.instr_addr + 4) := by
          refine hjB (f.instr_addr + 4) (by omega) ?_
          intro g hg hgl heq
          refine hBD (f.instr_addr + 4) ?_ hfD
          refine List.mem_filterMap.mpr ⟨g, List.mem_of_mem_drop hg, ?_⟩
          simp [hgl, heq]
        refine ⟨lui0, ori0, ?_, ?_, h3, h4⟩
        · rw [← e1, ← e2]
          exact h1
        · rw [← e3, ← e4]
          exact h2


/-- Counterexample to C6's "fails exactly when name is already bound":
here `"L"` is not bound, yet `define_label` fails, because the pending
branch fixup resolves to a misaligned target; the diagnostic is the
alignment one, not the redefinition one. -/
theorem C6_counterexample :
    ({ machineInit with
        branch_fixups := [⟨TEXT_BASE, OP_BEQ, 0, 0, "L"⟩] } : Machine).labels.lookup "L" =
      none ∧
    ({ machineInit with
        branch_fixups := [⟨TEXT_BASE, OP_BEQ, 0, 0, "L"⟩] } : Machine).define_label "L"
        (TEXT_BASE + 2) =
      .error "Branch target not word-aligned" := by
  constructor
  · rfl
  · simp [machineInit, Machine.reset, Machine.define_label, Machine.resolve_fixups_for,
      resolveBranchLoop, branchPatch, toS32, TEXT_BASE, OP_BEQ, List.lookup]

/-- Witness for C6 (amended), at concrete machines: a bound name is
rejected with the redefinition diagnostic, and defining `"L"` at
`TEXT_BASE + 8` with one pending `beq $at, $v0, L` fixup at `TEXT_BASE`
empties the fixup list and patches the word there. -/
theorem C6_witness :
    (({ machineInit with labels := [("L", TEXT_BASE)] } : Machine).define_label "L" TEXT_BASE =
      .error ("Label redefined: " ++ "L")) ∧
    (∀ f ∈ ({ machineInit with
        mem := ⟨[(0x400003, 1), (0x400002, 0), (0x400001, 0x22), (0x400000, 0x10)]⟩,
        labels := [("L", TEXT_BASE + 8)], branch_fixups := [] } : Machine).branch_fixups,
      f.label ≠ "L") ∧
    (∃ w, branchPatch (TEXT_BASE + 8) ⟨TEXT_BASE, OP_BEQ, 1, 2, "L"⟩ = .ok w ∧
      ({ machineInit with
        mem := ⟨[(0x400003, 1), (0x400002, 0), (0x400001, 0x22), (0x400000, 0x10)]⟩,
        labels := [("L", TEXT_BASE + 8)], branch_fixups := [] } : Machine).mem.load32 TEXT_BASE =
        .ok (w % 2 ^ 32)) := by
  have hdl : ({ machineInit with
        branch_fixups := [⟨TEXT_BASE, OP_BEQ, 1, 2, "L"⟩] } : Machine).define_label "L"
        (TEXT_BASE + 8) =
      .ok { machineInit with
        mem := ⟨[(0x400003, 1), (0x400002, 0), (0x400001, 0x22), (0x400000, 0x10)]⟩,
        labels := [("L", TEXT_BASE + 8)],
        branch_fixups := [] } := by
    simp [machineInit, Machine.reset, Machine.define_label, Machine.resolve_fixups_for,
      resolveBranchLoop, resolveJumpLoop, resolveLaLoop, branchPatch, jumpPatch, laPatch,
      toS32, TEXT_BASE, OP_BEQ, List.lookup, Memory.store32, Memory.store8, Memory.reset,
      Memory.is_valid_address, Memory.is_text, Memory.is_data, Memory.is_stack,
      TEXT_LIMIT, DATA_BASE, DATA_LIMIT, STACK_BASE, STACK_LIMIT, and_three_eq_mod,
      except_bind_ok, show ((4 : Int) >>> 2) = 1 from by decide]
    decide
  obtain ⟨_, hbf, _, _, hcond⟩ :=
    (C6_define_label_resolves_fixups
      { machineInit with branch_fixups := [⟨TEXT_BASE, OP_BEQ, 1, 2, "L"⟩] } "L"
      (TEXT_BASE + 8)).2 _ hdl
  refine ⟨(C6_define_label_resolves_fixups
      { machineInit with labels := [("L", TEXT_BASE)] } "L" TEXT_BASE).1 rfl, hbf, ?_⟩
  obtain ⟨hpatched, _, _⟩ := hcond (by decide)
  exact hpatched ⟨TEXT_BASE, OP_BEQ, 1, 2, "L"⟩ (by simp) rfl

end MIPS
